import Mathlib

/-!
Verification of the Scribe partition lambda
(`server/routerlicious/packages/lambdas/src/scribe/lambda.ts`).

The TypeScript class `ScribeLambda` is embedded shallowly:

* The promise-chained checkpoint writer (`checkpointCore` and the
  completion callback of its promise chain) is embedded as a small
  state machine (`CkptState`, `ckptStep`, `runCkpt`) whose external
  inputs are checkpoint requests and settlements of the in-flight
  database operation, and whose observable output is the list of
  emitted events (write/delete starts, settlements, Kafka offset
  acknowledgements).

* The per-batch `handler`, including the duplicate filter, the per-op
  ingestion/gap-healing, the `Summarize` / `NoClient` / `SummaryAck` /
  `ClientJoin` dispatch, and the end-of-batch checkpoint decision, is
  embedded as an `Except`-valued function from a state record and a
  queued message to a new state plus a list of emitted events.
  Asynchronous collaborators (summary writer, pending message reader)
  are supplied as oracle functions in an environment record.

Components of the repository that the lambda uses but whose sources are
not part of the verified tree (the protocol handler from protocol-base,
`DocumentCheckpointManager`, `CheckpointReason` and `isGlobalCheckpoint`
from the lambda utilities) are modelled from the specification; each
such definition carries a doc comment saying so.
-/

namespace Scribe

/-! ## The checkpoint coalescing machine (`checkpointCore`, lines 651-707) -/

/-- A request passed to `checkpointCore`: the document for the scribe
checkpoint payload is irrelevant to the control flow, so a request keeps
only an identifier, the queued message's offset, and the two mode flags
`clearCache` and `skipKafkaCheckpoint`. -/
structure CkptReq where
  id : Nat
  offset : Int
  clearCache : Bool
  skip : Bool
  deriving DecidableEq, Repr

/-- Observable events of the checkpoint machine: the start of a database
write or cache-clearing delete for a request, the settlement of that
database operation (with success flag; for the write path a rejection is
caught and recorded via the `databaseCheckpointFailed` local), and the
upstream Kafka offset acknowledgement `context.checkpoint`. -/
inductive CkptEvent where
  | start (id : Nat) (clearCache : Bool) (skip : Bool)
  | dbSettled (id : Nat) (ok : Bool)
  | kafka (id : Nat) (offset : Int)
  deriving DecidableEq, Repr

/-- The mutable fields of `ScribeLambda` that `checkpointCore` uses:
`closed`, `pendingP` (the in-flight promise, here the request it is
processing), and the single queued `(pendingCheckpointScribe,
pendingCheckpointOffset)` pair.  The queued slot keeps only the pair
itself: the source stores neither the superseded request's `clearCache`
nor its `skipKafkaCheckpoint` flag (lines 662-663).  `stale` is true
when `pendingP` still holds a promise whose chain has already settled:
this happens when a cache-clearing delete rejects, because the `.then`
callback that resets `pendingP` is skipped; a settled promise settles no
further, which `settleStep` respects by ignoring settlements of a stale
promise. -/
structure CkptState where
  closed : Bool
  inFlight : Option CkptReq
  stale : Bool
  queued : Option (Nat × Int)
  deriving DecidableEq, Repr

/-- External inputs of the machine: a call to `checkpointCore`, the
settlement of the in-flight database operation (`ok = false` is a
rejection), and `close`. -/
inductive CkptInput where
  | request (r : CkptReq)
  | settle (ok : Bool)
  | close
  deriving DecidableEq, Repr

/-- Entry of `checkpointCore` (lines 656-679): return when closed; when a
write is in flight, overwrite the queued pair and return; otherwise
start the database operation (delete when `clearCache`, else the
checkpoint write). -/
def checkpointCoreStep (s : CkptState) (r : CkptReq) : CkptState × List CkptEvent :=
  if s.closed then (s, [])
  else
    match s.inFlight with
    | some _ => ({ s with queued := some (r.id, r.offset) }, [])
    | none =>
      ({ s with inFlight := some r, stale := false },
       [.start r.id r.clearCache r.skip])

/-- Settlement of the in-flight database operation, i.e. the `.then`
callback of the promise chain (lines 680-698).  A rejected
`checkpointManager.delete` has no attached catch before the `.then`, so
the callback is skipped, `pendingP` is never reset and the queued pair is
never flushed (only the outer `.catch` logs).  A rejected
`writeCheckpoint` is caught (setting `databaseCheckpointFailed`), so the
callback still runs: it clears `pendingP`, acknowledges the Kafka offset
unless the settling request's `skip` flag is set or the database write
failed, and then flushes the queued pair, passing the settling closure's
`clearCache` and the default `skipKafkaCheckpoint = false`. -/
def settleStep (s : CkptState) (ok : Bool) : CkptState × List CkptEvent :=
  match s.inFlight with
  | none => (s, [])
  | some r =>
    if s.stale then (s, [])
    else if r.clearCache && !ok then ({ s with stale := true }, [.dbSettled r.id false])
    else
      let kafkaEvents : List CkptEvent :=
        if !r.skip && ok then [.kafka r.id r.offset] else []
      let s1 : CkptState := { s with inFlight := none }
      match s1.queued with
      | none => (s1, .dbSettled r.id ok :: kafkaEvents)
      | some (qid, qoff) =>
        let s2 : CkptState := { s1 with queued := none }
        let flushed := checkpointCoreStep s2 ⟨qid, qoff, r.clearCache, false⟩
        (flushed.1, .dbSettled r.id ok :: (kafkaEvents ++ flushed.2))

/-- One step of the checkpoint machine on an external input. -/
def ckptStep (s : CkptState) : CkptInput → CkptState × List CkptEvent
  | .request r => checkpointCoreStep s r
  | .settle ok => settleStep s ok
  | .close => ({ s with closed := true }, [])

/-- Run the checkpoint machine over a list of external inputs,
concatenating the emitted events. -/
def runCkpt : CkptState → List CkptInput → CkptState × List CkptEvent
  | s, [] => (s, [])
  | s, i :: rest =>
    let p := ckptStep s i
    let q := runCkpt p.1 rest
    (q.1, p.2 ++ q.2)

/-- The state of a freshly constructed lambda: not closed, no in-flight
write, nothing queued. -/
def ckptInit : CkptState :=
  { closed := false, inFlight := none, stale := false, queued := none }

/-- One when a database operation is outstanding (an in-flight promise
that has not yet settled), zero otherwise. -/
def outstandingCount (s : CkptState) : Nat :=
  if s.inFlight.isSome && !s.stale then 1 else 0

/-- A Kafka acknowledgement is justified when it immediately follows the
successful settlement of the database operation of the same request. -/
def eventOkAfter (prev : Option CkptEvent) (e : CkptEvent) : Bool :=
  match e with
  | .kafka i _ => prev == some (.dbSettled i true)
  | _ => true

/-- Every Kafka acknowledgement in the list is immediately preceded by
the successful settlement of the same request's database operation
(`prev` is the event just before the list, if any). -/
def kafkaJustifiedFrom (prev : Option CkptEvent) : List CkptEvent → Bool
  | [] => true
  | e :: rest => eventOkAfter prev e && kafkaJustifiedFrom (some e) rest

/-- Number of database operations started in the event list. -/
def countStart : List CkptEvent → Nat
  | [] => 0
  | .start _ _ _ :: rest => countStart rest + 1
  | _ :: rest => countStart rest

/-- Number of database operations settled in the event list. -/
def countSettled : List CkptEvent → Nat
  | [] => 0
  | .dbSettled _ _ :: rest => countSettled rest + 1
  | _ :: rest => countSettled rest

/-! ## The per-batch handler: data model -/

/-- Message types dispatched on by the lambda
(`MessageType` from protocol-definitions, restricted to the
constructors the lambda inspects, plus a generic `op`). -/
inductive MsgType where
  | op
  | clientJoin
  | clientLeave
  | summarize
  | summaryAck
  | summaryNack
  | noClient
  | control
  deriving DecidableEq, Repr

/-- A sequenced operation.  `deliAcked` is
`serverMetadata?.deliAcked`; `handle` and `summarySequenceNumber` are
the decoded `ISummaryAck` content (`content.handle`,
`content.summaryProposal.summarySequenceNumber`) carried by a
`summaryAck` op, already parsed (the source lazily parses them from
`data`/`contents` at line 441). -/
structure SeqOp where
  type : MsgType
  sequenceNumber : Nat
  minimumSequenceNumber : Nat
  referenceSequenceNumber : Nat
  clientId : String
  deliAcked : Bool
  handle : String
  summarySequenceNumber : Nat
  deriving DecidableEq, Repr

/-- Modelled from the spec: the protocol handler (`ProtocolOpHandler`
from protocol-base, section 4.A of the specification) is not part of the
verified tree.  Its state is `{ members, proposals, values,
minimumSequenceNumber, sequenceNumber }`; proposals and values are
irrelevant to every claim and are omitted. -/
structure ProtocolState where
  members : List String
  minimumSequenceNumber : Nat
  sequenceNumber : Nat
  deriving DecidableEq, Repr

/-- Modelled from the spec: `processMessage` updates membership on
ClientJoin/ClientLeave and advances the sequence/MSN counters
(section 4.A). -/
def processMessage (ps : ProtocolState) (op : SeqOp) : ProtocolState :=
  { members :=
      match op.type with
      | .clientJoin => ps.members ++ [op.clientId]
      | .clientLeave => ps.members.filter (fun c => c ≠ op.clientId)
      | _ => ps.members
    minimumSequenceNumber := op.minimumSequenceNumber
    sequenceNumber := op.sequenceNumber }

/-- Modelled from the spec: `getProtocolState` returns a serializable
snapshot of the handler's state (section 4.A); on this model the handler
is its state, so the snapshot is the state itself. -/
def getProtocolState (ps : ProtocolState) : ProtocolState := ps

/-- Modelled from the spec: `initializeProtocol` (scribe utilities, not
in the verified tree) constructs a protocol handler from a snapshot;
replaying from a snapshot restores the snapshotted state bit-equal
(sections 4.A and 8, property 4). -/
def initializeProtocol (ps : ProtocolState) : ProtocolState := ps

/-- The persisted scribe checkpoint record `IScribe`
(`checkpointTimestamp` is kept as an integer clock value). -/
structure IScribe where
  lastSummarySequenceNumber : Option Nat
  lastClientSummaryHead : Option String
  logOffset : Int
  minimumSequenceNumber : Nat
  protocolState : ProtocolState
  sequenceNumber : Nat
  validParentSummaries : Option (List String)
  isCorrupt : Bool
  protocolHead : Nat
  checkpointTimestamp : Int
  deriving DecidableEq, Repr

/-- Modelled from the spec: the checkpoint reasons produced by the
heuristics (`CheckpointReason` lives in the lambda utilities, outside
the verified tree; section 4.C lists the reasons). -/
inductive CheckpointReason where
  | everyMessage
  | maxMessages
  | maxTime
  | noClients
  | markAsCorrupt
  | idleTime
  deriving DecidableEq, Repr

/-- The checkpoint heuristics configuration
(`serviceConfiguration.scribe.checkpointHeuristics`). -/
structure CheckpointHeuristics where
  enable : Bool
  maxMessages : Nat
  maxTime : Int
  idleTime : Int
  deriving DecidableEq, Repr

/-- The configuration the lambda reads: the scribe section of the
service configuration plus the constructor arguments that are plain
flags.  Tenant filtering is reduced to whether this document's tenant is
in the transient set. -/
structure ScribeConfig where
  enablePendingCheckpointMessages : Bool
  generateServiceSummary : Bool
  clearCacheAfterServiceSummary : Bool
  ignoreStorageException : Bool
  maxTrackedServiceSummaryVersionsSinceLastClientSummary : Nat
  checkpointHeuristics : CheckpointHeuristics
  kafkaCheckpointOnReprocessingOp : Bool
  localCheckpointEnabled : Bool
  maxPendingCheckpointMessagesLength : Nat
  disableTransientTenantFiltering : Bool
  isTransientTenant : Bool
  isEphemeralContainer : Bool
  isExternal : Bool
  deriving DecidableEq, Repr

/-- Result of `summaryWriter.writeClientSummary`: a successful response
carrying the `ISummaryAck` content, a failed response carrying the
`ISummaryNack` message, or a thrown exception. -/
inductive ClientSummaryResult where
  | success (handle : String) (summarySequenceNumber : Nat)
  | nacked (message : String)
  | thrown
  deriving DecidableEq, Repr

/-- Result of `summaryWriter.writeServiceSummary`: a truthy handle, a
falsy response, or a thrown exception. -/
inductive ServiceSummaryResult where
  | written (handle : String)
  | noResponse
  | thrown
  deriving DecidableEq, Repr

/-- Oracles for the asynchronous collaborators: the summary writer's two
entry points, the optional pending message reader, and the current
clock value (`Date.now()`). -/
structure ScribeEnv where
  writeClientSummary : SeqOp → ClientSummaryResult
  writeServiceSummary : SeqOp → ServiceSummaryResult
  pendingMessageReader : Option (Nat → Nat → List SeqOp)
  now : Int

/-- A queued Kafka message: an offset together with the sequenced ops of
its boxcar (`extractBoxcar(message).contents`, keeping only the
`SequencedOperationType` entries the loop at line 177 acts on). -/
structure QueuedMessage where
  offset : Int
  contents : List SeqOp
  deriving DecidableEq, Repr

/-- Errors thrown out of `handler`. -/
inductive ScribeError where
  | invalidSequenceNumber (msgSeq : Nat) (handlerSeq : Nat)
  | clientSummaryFailure
  | serviceSummaryFailure
  | noClientAssertFailure
  deriving DecidableEq, Repr

/-- Observable emissions of the handler: ops sent to deli through the
producer (`SummaryAck`, `SummaryNack`, the `UpdateDSN` control op), the
direct Kafka acknowledgement of the duplicate-filter branch, a
checkpoint request handed to `checkpointCore` by `prepareCheckpoint`,
the arming of the idle-time checkpoint timer, the summary writer
invocations, and a pending-message-reader fetch. -/
inductive Emit where
  | summaryAckOp (handle : String)
  | summaryNackOp (message : String)
  | controlUpdateDSN (durableSequenceNumber : Nat) (isClientSummary : Bool) (clearCache : Bool)
  | kafkaCheckpoint (offset : Int)
  | checkpointRequested (reason : CheckpointReason) (offset : Int)
      (skipKafka : Bool) (isGlobal : Bool)
  | idleTimerArmed
  | clientSummaryWriteAttempt (seq : Nat)
  | serviceSummaryWriteAttempt (seq : Nat)
  | readerRequest (fromSeq : Nat) (toSeq : Nat)
  deriving DecidableEq, Repr

/-- The mutable fields of `ScribeLambda` that the per-batch handler
reads or writes.  `rawMessagesSinceCheckpoint`, `lastCheckpointTime` and
`currentCheckpointMessage` are the bookkeeping held by
`DocumentCheckpointManager` (not in the verified tree; modelled from the
spec, sections 4.C and 4.F), and `noActiveClients` is its
no-active-clients flag. -/
structure ScribeState where
  lastOffset : Int
  pendingMessages : List SeqOp
  sequenceNumber : Nat
  minSequenceNumber : Nat
  lastClientSummaryHead : Option String
  lastSummarySequenceNumber : Option Nat
  validParentSummaries : Option (List String)
  isDocumentCorrupt : Bool
  clearCache : Bool
  protocolHandler : ProtocolState
  protocolHead : Nat
  globalCheckpointOnly : Bool
  noActiveClients : Bool
  rawMessagesSinceCheckpoint : Nat
  lastCheckpointTime : Int
  currentCheckpointMessage : Option QueuedMessage
  pendingCheckpointMessages : List SeqOp
  lastCheckpointInsertedNumber : Nat
  deriving DecidableEq, Repr

/-! ## The per-batch handler: operations -/

/-- The drain loop of `processFromPending` (lines 573-619): shift ops
off the front of the pending buffer while their sequence number is at
most `target` and feed each to the protocol handler.  The source's deep
clone and JSON decode of string contents do not change the resulting
protocol state and are elided; the protocol handler of the model does
not throw (the corrupt-marking path on a protocol error aborts the
batch and is outside every claim's scope). -/
def drainPending (target : Nat) : ProtocolState → List SeqOp → ProtocolState × List SeqOp
  | ps, [] => (ps, [])
  | ps, m :: rest =>
    if m.sequenceNumber ≤ target then drainPending target (processMessage ps m) rest
    else (ps, m :: rest)

/-- `processFromPending(target)` on the state record. -/
def processFromPending (target : Nat) (st : ScribeState) : ScribeState :=
  let r := drainPending target st.protocolHandler st.pendingMessages
  { st with protocolHandler := r.1, pendingMessages := r.2 }

/-- `revertProtocolState` (lines 626-632): rebuild the protocol handler
from the snapshotted protocol state and replace the pending buffer. -/
def revertProtocolState (st : ScribeState) (protocolState : ProtocolState)
    (pendingOps : List SeqOp) : ScribeState :=
  { st with protocolHandler := initializeProtocol protocolState
            pendingMessages := pendingOps }

/-- `updateValidParentSummaries` (lines 764-783): append the new handle;
if the count over the limit is exactly one, shift the oldest entry off;
if it is larger (legacy documents), splice off all entries over the
limit.  Natural subtraction makes the non-positive overflow case the
zero case, as in the source where `countOverLimit <= 0` falls through
both branches. -/
def updateValidParentSummaries (limit : Nat) (st : ScribeState)
    (summaryHandle : String) : ScribeState :=
  let l := st.validParentSummaries.getD [] ++ [summaryHandle]
  let countOverLimit := l.length - limit
  let l1 :=
    if countOverLimit = 1 then l.drop 1
    else if countOverLimit > 1 then l.drop countOverLimit
    else l
  { st with validParentSummaries := some l1 }

/-- Modelled from the spec: scrubbing replaces identifying member
fields with stable placeholders (section 4.A); membership of the
quorum is reduced to client ids here, so scrubbing blanks them. -/
def scrubProtocolState (scrubUserData : Bool) (ps : ProtocolState) : ProtocolState :=
  if scrubUserData then { ps with members := ps.members.map (fun _ => "") } else ps

/-- `generateScribeCheckpoint` (lines 634-649). -/
def generateScribeCheckpoint (st : ScribeState) (logOffset : Int)
    (scrubUserData : Bool) (now : Int) : IScribe :=
  { lastSummarySequenceNumber := st.lastSummarySequenceNumber
    lastClientSummaryHead := st.lastClientSummaryHead
    logOffset := logOffset
    minimumSequenceNumber := st.minSequenceNumber
    protocolState := scrubProtocolState scrubUserData (getProtocolState st.protocolHandler)
    sequenceNumber := st.sequenceNumber
    validParentSummaries := st.validParentSummaries
    isCorrupt := st.isDocumentCorrupt
    protocolHead := st.protocolHead
    checkpointTimestamp := now }

/-- The `Summarize` dispatch (lines 235-352), entered for a summarize op
that deli has not already acked.  The pre-summary snapshot
`prevState = { protocolState, pendingOps }` is captured before the
protocol handler advances to the op's reference sequence number; the
client summary is attempted only when the protocol head is strictly
below the advanced handler's sequence number.  For a non-external
writer, success emits the ack then the `UpdateDSN` control op and
advances `protocolHead` and `lastSummarySequenceNumber`; failure emits
the nack and reverts to the snapshot.  A thrown write reverts and, when
`ignoreStorageException` is set, emits a synthetic nack, else rethrows. -/
def summarizeDispatch (cfg : ScribeConfig) (env : ScribeEnv) (st : ScribeState)
    (op : SeqOp) : Except ScribeError (ScribeState × List Emit) :=
  if !cfg.isExternal
      || op.referenceSequenceNumber ≥ st.protocolHandler.sequenceNumber then
    let prevProtocolState := getProtocolState st.protocolHandler
    let prevPendingOps := st.pendingMessages
    let st1 := processFromPending op.referenceSequenceNumber st
    if st1.protocolHead < st1.protocolHandler.sequenceNumber then
      match env.writeClientSummary op with
      | .success h _ssn =>
        if !cfg.isExternal then
          .ok ({ st1 with
                   protocolHead := st1.protocolHandler.sequenceNumber
                   lastSummarySequenceNumber := some st1.protocolHandler.sequenceNumber },
               [.clientSummaryWriteAttempt op.sequenceNumber, .summaryAckOp h,
                .controlUpdateDSN op.sequenceNumber true false])
        else .ok (st1, [.clientSummaryWriteAttempt op.sequenceNumber])
      | .nacked m =>
        if !cfg.isExternal then
          .ok (revertProtocolState st1 prevProtocolState prevPendingOps,
               [.clientSummaryWriteAttempt op.sequenceNumber, .summaryNackOp m])
        else .ok (st1, [.clientSummaryWriteAttempt op.sequenceNumber])
      | .thrown =>
        let st2 := revertProtocolState st1 prevProtocolState prevPendingOps
        if cfg.ignoreStorageException then
          .ok (st2, [.clientSummaryWriteAttempt op.sequenceNumber,
                     .summaryNackOp "Failed to summarize the document."])
        else .error .clientSummaryFailure
    else .ok (st1, [])
  else .ok (st, [])

/-- The `NoClient` dispatch (lines 354-438): assert the op's reference
and minimum sequence numbers equal its sequence number, record that no
clients are active, force global checkpoints, and, when service
summaries are enabled for this tenant and the container is not
ephemeral, attempt the service summary.  A truthy response sets
`clearCache` when configured, emits the `UpdateDSN` control op, updates
`lastSummarySequenceNumber` and appends the handle to
`validParentSummaries`.  A thrown write is swallowed under
`ignoreStorageException`, else marks the document corrupt and
rethrows. -/
def noClientDispatch (cfg : ScribeConfig) (env : ScribeEnv) (st : ScribeState)
    (op : SeqOp) : Except ScribeError (ScribeState × List Emit) :=
  if op.referenceSequenceNumber = op.sequenceNumber
      ∧ op.minimumSequenceNumber = op.sequenceNumber then
    let st1 := { st with noActiveClients := true, globalCheckpointOnly := true }
    let enableServiceSummaryForTenant :=
      cfg.disableTransientTenantFiltering || !cfg.isTransientTenant
    if cfg.generateServiceSummary && !cfg.isEphemeralContainer
        && enableServiceSummaryForTenant then
      match env.writeServiceSummary op with
      | .written h =>
        let st2 :=
          if cfg.clearCacheAfterServiceSummary then { st1 with clearCache := true } else st1
        let st3 := { st2 with lastSummarySequenceNumber := some op.sequenceNumber }
        let st4 := updateValidParentSummaries
          cfg.maxTrackedServiceSummaryVersionsSinceLastClientSummary st3 h
        .ok (st4, [.serviceSummaryWriteAttempt op.sequenceNumber,
                   .controlUpdateDSN op.sequenceNumber false cfg.clearCacheAfterServiceSummary])
      | .noResponse => .ok (st1, [.serviceSummaryWriteAttempt op.sequenceNumber])
      | .thrown =>
        if cfg.ignoreStorageException then
          .ok (st1, [.serviceSummaryWriteAttempt op.sequenceNumber])
        else .error .serviceSummaryFailure
    else .ok (st1, [])
  else .error .noClientAssertFailure

/-- The `SummaryAck` dispatch (lines 439-456): record the new client
summary head, reset `validParentSummaries`, and for an external writer
advance `protocolHead` and `lastSummarySequenceNumber` to the acked
proposal's sequence number. -/
def summaryAckDispatch (cfg : ScribeConfig) (st : ScribeState) (op : SeqOp) : ScribeState :=
  let st1 := { st with lastClientSummaryHead := some op.handle
                       validParentSummaries := none }
  if cfg.isExternal then
    { st1 with protocolHead := op.summarySequenceNumber
               lastSummarySequenceNumber := some op.summarySequenceNumber }
  else st1

/-- The last known sequence number at ingestion: the back of the pending
buffer, or the protocol handler's sequence number when the buffer is
empty (lines 185-187). -/
def lastKnownSeq (st : ScribeState) : Nat :=
  ((st.pendingMessages.getLast?).map SeqOp.sequenceNumber).getD
    st.protocolHandler.sequenceNumber

/-- The gap-detection step (lines 194-212): when the op's sequence
number is not exactly one past the last known sequence number, either
throw the invalid-sequence-number error (no pending message reader
configured) or request the ops in `[lastKnown + 1, op.sequenceNumber - 1]`
from the reader and append them to the pending buffer. -/
def healGap (env : ScribeEnv) (st : ScribeState) (op : SeqOp) (lastKnown : Nat) :
    Except ScribeError (ScribeState × List Emit) :=
  if op.sequenceNumber ≠ lastKnown + 1 then
    match env.pendingMessageReader with
    | none => .error (.invalidSequenceNumber op.sequenceNumber lastKnown)
    | some readMessages =>
      let fetched := readMessages (lastKnown + 1) (op.sequenceNumber - 1)
      .ok ({ st with pendingMessages := st.pendingMessages ++ fetched },
           [.readerRequest (lastKnown + 1) (op.sequenceNumber - 1)])
  else .ok (st, [])

/-- The ingestion pipeline for an accepted op (lines 214-232): push it
onto the pending buffer (and, when enabled, onto the pending checkpoint
message buffer), advance the sequence and minimum sequence numbers,
drain the protocol handler up to the new MSN when it moved, and clear
`clearCache`. -/
def ingestOp (cfg : ScribeConfig) (gapSt : ScribeState) (op : SeqOp) : ScribeState :=
  let st1 := { gapSt with pendingMessages := gapSt.pendingMessages ++ [op] }
  let st2 :=
    if cfg.enablePendingCheckpointMessages then
      { st1 with pendingCheckpointMessages := st1.pendingCheckpointMessages ++ [op] }
    else st1
  let msnChanged := st2.minSequenceNumber ≠ op.minimumSequenceNumber
  let st3 := { st2 with sequenceNumber := op.sequenceNumber
                        minSequenceNumber := op.minimumSequenceNumber }
  let st4 := if msnChanged then processFromPending op.minimumSequenceNumber st3 else st3
  { st4 with clearCache := false }

/-- Processing of one sequenced op of the boxcar (lines 177-463): skip
ops at or below the checkpointed sequence number and ops at or below the
last known sequence number (partial-checkpoint re-delivery); heal a gap
through the pending message reader or throw when none is configured;
ingest the op; then dispatch on the op type. -/
def processOp (cfg : ScribeConfig) (env : ScribeEnv) (st : ScribeState)
    (op : SeqOp) : Except ScribeError (ScribeState × List Emit) :=
  if op.sequenceNumber ≤ st.sequenceNumber then .ok (st, [])
  else
    let lastKnown := lastKnownSeq st
    if op.sequenceNumber ≤ lastKnown then .ok (st, [])
    else
      match healGap env st op lastKnown with
      | .error e => .error e
      | .ok gap =>
        let st5 := ingestOp cfg gap.1 op
        if op.type = .summarize ∧ !op.deliAcked then
          match summarizeDispatch cfg env st5 op with
          | .error e => .error e
          | .ok r => .ok (r.1, gap.2 ++ r.2)
        else if op.type = .noClient then
          match noClientDispatch cfg env st5 op with
          | .error e => .error e
          | .ok r => .ok (r.1, gap.2 ++ r.2)
        else if op.type = .summaryAck then
          .ok (summaryAckDispatch cfg st5 op, gap.2)
        else if op.type = .clientJoin ∧ cfg.localCheckpointEnabled then
          .ok ({ st5 with globalCheckpointOnly := false }, gap.2)
        else .ok (st5, gap.2)

/-- The boxcar loop: process each sequenced op in order, concatenating
emissions; a thrown error aborts the batch. -/
def processOps (cfg : ScribeConfig) (env : ScribeEnv) :
    ScribeState → List SeqOp → Except ScribeError (ScribeState × List Emit)
  | st, [] => .ok (st, [])
  | st, op :: rest =>
    match processOp cfg env st op with
    | .error e => .error e
    | .ok r1 =>
      match processOps cfg env r1.1 rest with
      | .error e => .error e
      | .ok r2 => .ok (r2.1, r1.2 ++ r2.2)

/-- `getCheckpointReason` (lines 852-873), with the checkpoint manager's
bookkeeping (the raw message counter and last checkpoint time, which
live in `DocumentCheckpointManager`, outside the verified tree) and the
clock passed as arguments. -/
def getCheckpointReason (cfg : ScribeConfig) (now : Int)
    (rawMessagesSinceCheckpoint : Nat) (lastCheckpointTime : Int) :
    Option CheckpointReason :=
  if !cfg.checkpointHeuristics.enable then some .everyMessage
  else if rawMessagesSinceCheckpoint ≥ cfg.checkpointHeuristics.maxMessages then
    some .maxMessages
  else if now - lastCheckpointTime ≥ cfg.checkpointHeuristics.maxTime then
    some .maxTime
  else none

/-- Modelled from the spec: a checkpoint is global iff there are no
active clients or global-only checkpointing is forced
(`isGlobalCheckpoint` lives in the scribe utilities, outside the
verified tree; section 4.C selection rule). -/
def isGlobalCheckpoint (noActiveClients globalCheckpointOnly : Bool) : Bool :=
  noActiveClients || globalCheckpointOnly

/-- `prepareCheckpoint` (lines 491-533): compute the checkpoint location,
update the checkpoint bookkeeping with the current message, reset the
checkpoint timer bookkeeping (modelled from the spec: the raw counter
and last checkpoint time restart at a checkpoint, section 4.C), hand the
checkpoint to `checkpointCore` — recorded here as a
`checkpointRequested` emission — and set `lastOffset` to the message's
offset. -/
def prepareCheckpoint (cfg : ScribeConfig) (env : ScribeEnv) (st : ScribeState)
    (msg : QueuedMessage) (reason : CheckpointReason) (skipKafkaCheckpoint : Bool) :
    ScribeState × List Emit :=
  let isGlobal := isGlobalCheckpoint st.noActiveClients st.globalCheckpointOnly
  let st1 := { st with currentCheckpointMessage := some msg
                       rawMessagesSinceCheckpoint := 0
                       lastCheckpointTime := env.now
                       lastOffset := msg.offset }
  (st1, [.checkpointRequested reason msg.offset skipKafkaCheckpoint isGlobal])

/-- The end-of-batch checkpoint decision (lines 466-489): update the
bookkeeping with the current message and bump the raw message counter;
when a `NoClient` op was observed, force global-only checkpointing
(under local checkpointing), checkpoint with reason `NoClients` and
clear the flag; otherwise checkpoint with the heuristic reason, or arm
the idle-time checkpoint timer when there is none. -/
def endOfBatch (cfg : ScribeConfig) (env : ScribeEnv) (st : ScribeState)
    (msg : QueuedMessage) : ScribeState × List Emit :=
  let st1 := { st with currentCheckpointMessage := some msg
                       rawMessagesSinceCheckpoint := st.rawMessagesSinceCheckpoint + 1 }
  if st1.noActiveClients then
    let st2 := if cfg.localCheckpointEnabled then { st1 with globalCheckpointOnly := true } else st1
    let r := prepareCheckpoint cfg env st2 msg .noClients false
    ({ r.1 with noActiveClients := false }, r.2)
  else
    match getCheckpointReason cfg env.now st1.rawMessagesSinceCheckpoint st1.lastCheckpointTime with
    | none => (st1, [.idleTimerArmed])
    | some reason => prepareCheckpoint cfg env st1 msg reason false

/-- The per-batch `handler` (lines 139-489).  A message at or below the
last processed offset takes the duplicate-filter branch: update the
checkpoint bookkeeping, acknowledge the Kafka offset when
`kafkaCheckpointOnReprocessingOp` is set, and return.  Otherwise record
the new offset, run the boxcar loop, and take the end-of-batch
checkpoint decision. -/
def handler (cfg : ScribeConfig) (env : ScribeEnv) (st : ScribeState)
    (msg : QueuedMessage) : Except ScribeError (ScribeState × List Emit) :=
  if msg.offset ≤ st.lastOffset then
    .ok ({ st with currentCheckpointMessage := some msg },
         if cfg.kafkaCheckpointOnReprocessingOp then [.kafkaCheckpoint msg.offset] else [])
  else
    match processOps cfg env { st with lastOffset := msg.offset } msg.contents with
    | .error e => .error e
    | .ok r1 =>
      let r2 := endOfBatch cfg env r1.1 msg
      .ok (r2.1, r1.2 ++ r2.2)

/-- `setStateFromCheckpoint` (lines 841-848): copy the persisted
checkpoint's fields into the lambda's state verbatim. -/
def setStateFromCheckpoint (scribe : IScribe) (st : ScribeState) : ScribeState :=
  { st with sequenceNumber := scribe.sequenceNumber
            minSequenceNumber := scribe.minimumSequenceNumber
            lastClientSummaryHead := scribe.lastClientSummaryHead
            lastSummarySequenceNumber := scribe.lastSummarySequenceNumber
            validParentSummaries := scribe.validParentSummaries
            isDocumentCorrupt := scribe.isCorrupt }

/-- The constructor (lines 108-134): seed `lastOffset` from the
checkpoint's log offset, copy the checkpoint state, install the fetched
tail of pending messages, and force global-only checkpoints unless
local checkpointing is enabled.  The protocol handler and protocol head
are constructor arguments. -/
def initialState (cfg : ScribeConfig) (scribe : IScribe)
    (protocolHandler : ProtocolState) (protocolHead : Nat)
    (messages : List SeqOp) : ScribeState :=
  setStateFromCheckpoint scribe
    { lastOffset := scribe.logOffset
      pendingMessages := messages
      sequenceNumber := 0
      minSequenceNumber := 0
      lastClientSummaryHead := none
      lastSummarySequenceNumber := none
      validParentSummaries := none
      isDocumentCorrupt := false
      clearCache := false
      protocolHandler := protocolHandler
      protocolHead := protocolHead
      globalCheckpointOnly := !cfg.localCheckpointEnabled
      noActiveClients := false
      rawMessagesSinceCheckpoint := 0
      lastCheckpointTime := 0
      currentCheckpointMessage := none
      pendingCheckpointMessages := []
      lastCheckpointInsertedNumber := 0 }

/-- `writeCheckpoint` (lines 709-740): hand the pending checkpoint
messages above the last inserted sequence number to the checkpoint
manager; when any were inserted, advance the last inserted number to the
final insert's sequence number and evict buffered entries at or below
`max(protocolHead, lastInserted − maxPendingCheckpointMessagesLength)`
from the front.  Natural subtraction agrees with the source's
`Math.max` because `protocolHead` dominates any negative difference.
Returns the new state together with the inserts handed to the
checkpoint manager. -/
def writeCheckpointStep (maxPendingCheckpointMessagesLength : Nat)
    (st : ScribeState) : ScribeState × List SeqOp :=
  let inserts := st.pendingCheckpointMessages.filter
    (fun pcm => st.lastCheckpointInsertedNumber < pcm.sequenceNumber)
  if inserts.isEmpty then (st, inserts)
  else
    let lastInserted :=
      ((inserts.getLast?).map SeqOp.sequenceNumber).getD st.lastCheckpointInsertedNumber
    let cappedNumber := max st.protocolHead
      (lastInserted - maxPendingCheckpointMessagesLength)
    ({ st with lastCheckpointInsertedNumber := lastInserted
               pendingCheckpointMessages := st.pendingCheckpointMessages.dropWhile
                 (fun m => m.sequenceNumber ≤ cappedNumber) },
     inserts)

/-! ## Auxiliary predicates -/

/-- The emissions of a handler run, empty when the handler threw. -/
def emitsOf (r : Except ScribeError (ScribeState × List Emit)) : List Emit :=
  match r with
  | .ok p => p.2
  | .error _ => []

/-- The `validParentSummaries` bound of the specification: absent, or at
most `limit` entries. -/
def vpsBounded (limit : Nat) (st : ScribeState) : Prop :=
  (st.validParentSummaries.getD []).length ≤ limit

instance (limit : Nat) (st : ScribeState) : Decidable (vpsBounded limit st) := by
  unfold vpsBounded; infer_instance

/-- The list's sequence numbers are exactly `base + 1, base + 2, ...`:
the contiguity invariant of the pending buffer. -/
def contiguousFrom (base : Nat) : List SeqOp → Prop
  | [] => True
  | m :: rest => m.sequenceNumber = base + 1 ∧ contiguousFrom m.sequenceNumber rest

instance (base : Nat) (l : List SeqOp) : Decidable (contiguousFrom base l) := by
  induction l generalizing base with
  | nil => exact .isTrue trivial
  | cons m rest ih => unfold contiguousFrom; exact @instDecidableAnd _ _ _ (ih _)

/-- The sequence numbers of the list are strictly increasing. -/
def seqsIncreasing (l : List SeqOp) : Prop :=
  l.Pairwise (fun a b => a.sequenceNumber < b.sequenceNumber)

instance (l : List SeqOp) : Decidable (seqsIncreasing l) := by
  unfold seqsIncreasing; infer_instance

/-- The event list contains no Kafka offset acknowledgement. -/
def noKafka : List CkptEvent → Bool
  | [] => true
  | .kafka _ _ :: _ => false
  | _ :: rest => noKafka rest

/-! ## Concrete fixtures used by witnesses -/

/-- A concrete configuration for witness evaluation. -/
def sampleCfg : ScribeConfig :=
  { enablePendingCheckpointMessages := true
    generateServiceSummary := true
    clearCacheAfterServiceSummary := false
    ignoreStorageException := false
    maxTrackedServiceSummaryVersionsSinceLastClientSummary := 2
    checkpointHeuristics := { enable := true, maxMessages := 10, maxTime := 60, idleTime := 5 }
    kafkaCheckpointOnReprocessingOp := true
    localCheckpointEnabled := false
    maxPendingCheckpointMessagesLength := 5
    disableTransientTenantFiltering := true
    isTransientTenant := false
    isEphemeralContainer := false
    isExternal := false }

/-- A concrete environment whose summary writer succeeds. -/
def sampleEnv : ScribeEnv :=
  { writeClientSummary := fun _ => .success "h1" 11
    writeServiceSummary := fun _ => .written "s1"
    pendingMessageReader := none
    now := 100 }

/-- A concrete state: sequence number 10, protocol head 0, last offset
100, empty buffers. -/
def sampleState : ScribeState :=
  { lastOffset := 100
    pendingMessages := []
    sequenceNumber := 10
    minSequenceNumber := 5
    lastClientSummaryHead := some "h0"
    lastSummarySequenceNumber := some 3
    validParentSummaries := none
    isDocumentCorrupt := false
    clearCache := false
    protocolHandler := { members := ["c1"], minimumSequenceNumber := 5, sequenceNumber := 10 }
    protocolHead := 0
    globalCheckpointOnly := true
    noActiveClients := false
    rawMessagesSinceCheckpoint := 0
    lastCheckpointTime := 90
    currentCheckpointMessage := none
    pendingCheckpointMessages := []
    lastCheckpointInsertedNumber := 0 }

/-- A concrete summarize op at sequence number 11 referencing 10. -/
def sampleSummarizeOp : SeqOp :=
  { type := .summarize
    sequenceNumber := 11
    minimumSequenceNumber := 5
    referenceSequenceNumber := 10
    clientId := "c1"
    deliAcked := false
    handle := ""
    summarySequenceNumber := 0 }

/-- A plain op at the given sequence and minimum sequence numbers. -/
def mkOp (n msn : Nat) : SeqOp :=
  { type := .op, sequenceNumber := n, minimumSequenceNumber := msn,
    referenceSequenceNumber := 0, clientId := "c", deliAcked := false,
    handle := "", summarySequenceNumber := 0 }

/-- A state whose protocol handler and checkpoint are at sequence
number 4 with an empty pending buffer. -/
def gapState : ScribeState :=
  { sampleState with
      sequenceNumber := 4
      minSequenceNumber := 2
      pendingMessages := []
      protocolHandler := { members := [], minimumSequenceNumber := 2, sequenceNumber := 4 } }

/-- An environment whose pending message reader serves the range 5..6. -/
def gapEnv : ScribeEnv :=
  { sampleEnv with
      pendingMessageReader := some (fun a b =>
        if a = 5 ∧ b = 6 then [mkOp 5 2, mkOp 6 2] else []) }

/-- A state with four buffered checkpoint messages, protocol head 2 and
nothing inserted yet. -/
def pcmState : ScribeState :=
  { sampleState with
      pendingCheckpointMessages := [mkOp 1 0, mkOp 2 0, mkOp 3 0, mkOp 4 0]
      lastCheckpointInsertedNumber := 0
      protocolHead := 2 }

/-- A persisted checkpoint carrying three service summary handles (as a
document from before the limit was enforced can; see the comment at
lines 778-780 of the source). -/
def overScribe : IScribe :=
  { lastSummarySequenceNumber := some 3
    lastClientSummaryHead := some "h0"
    logOffset := 100
    minimumSequenceNumber := 0
    protocolState := { members := [], minimumSequenceNumber := 0, sequenceNumber := 0 }
    sequenceNumber := 0
    validParentSummaries := some ["a", "b", "c"]
    isCorrupt := false
    protocolHead := 0
    checkpointTimestamp := 0 }

/-- The state with its `isDocumentCorrupt` flag set to `b`. -/
def withCorrupt (st : ScribeState) (b : Bool) : ScribeState :=
  { st with isDocumentCorrupt := b }

/-- A corrupt persisted checkpoint at sequence number 10. -/
def corruptScribe : IScribe :=
  { lastSummarySequenceNumber := some 3
    lastClientSummaryHead := some "h0"
    logOffset := 100
    minimumSequenceNumber := 5
    protocolState := { members := [], minimumSequenceNumber := 5, sequenceNumber := 10 }
    sequenceNumber := 10
    validParentSummaries := none
    isCorrupt := true
    protocolHead := 0
    checkpointTimestamp := 0 }

/-! ## Lemmas about the checkpoint machine -/

theorem kafkaJustifiedFrom_append (xs ys : List CkptEvent) (prev : Option CkptEvent)
    (hys : ∀ p, kafkaJustifiedFrom p ys = true)
    (hxs : kafkaJustifiedFrom prev xs = true) :
    kafkaJustifiedFrom prev (xs ++ ys) = true := by
  induction xs generalizing prev with
  | nil => simpa using hys prev
  | cons e rest ih =>
    simp only [kafkaJustifiedFrom, Bool.and_eq_true] at hxs
    simp only [List.cons_append, kafkaJustifiedFrom, Bool.and_eq_true]
    exact ⟨hxs.1, ih _ hxs.2⟩

theorem checkpointCoreStep_justified (s : CkptState) (r : CkptReq)
    (prev : Option CkptEvent) :
    kafkaJustifiedFrom prev (checkpointCoreStep s r).2 = true := by
  simp only [checkpointCoreStep]
  split
  · simp [kafkaJustifiedFrom]
  · split <;> simp [kafkaJustifiedFrom, eventOkAfter]

theorem ckptStep_justified (s : CkptState) (i : CkptInput) (prev : Option CkptEvent) :
    kafkaJustifiedFrom prev (ckptStep s i).2 = true := by
  cases i with
  | close => simp [ckptStep, kafkaJustifiedFrom]
  | request r => exact checkpointCoreStep_justified s r prev
  | settle ok =>
    simp only [ckptStep, settleStep]
    split
    · simp [kafkaJustifiedFrom]
    · rename_i r hr
      split
      · simp [kafkaJustifiedFrom]
      · split
        · simp [kafkaJustifiedFrom, eventOkAfter]
        · by_cases hk : (!r.skip && ok) = true
          · have hok : ok = true := by cases ok <;> simp_all
            subst hok
            split
            · simp [hk, kafkaJustifiedFrom, eventOkAfter]
            · simp only [hk, if_true, List.cons_append, List.nil_append]
              simp only [kafkaJustifiedFrom, Bool.and_eq_true, eventOkAfter]
              exact ⟨by simp, by simp, checkpointCoreStep_justified _ _ _⟩
          · split
            · simp [hk, kafkaJustifiedFrom, eventOkAfter]
            · simp only [hk, if_false, Bool.false_eq_true, List.nil_append]
              simp only [kafkaJustifiedFrom, Bool.and_eq_true, eventOkAfter]
              exact ⟨by simp, checkpointCoreStep_justified _ _ _⟩

theorem runCkpt_justified (inputs : List CkptInput) :
    ∀ (s : CkptState) (prev : Option CkptEvent),
      kafkaJustifiedFrom prev (runCkpt s inputs).2 = true := by
  induction inputs with
  | nil => intro s prev; simp [runCkpt, kafkaJustifiedFrom]
  | cons i rest ih =>
    intro s prev
    simp only [runCkpt]
    exact kafkaJustifiedFrom_append _ _ _ (fun p => ih _ p) (ckptStep_justified s i prev)

theorem countStart_append (xs ys : List CkptEvent) :
    countStart (xs ++ ys) = countStart xs + countStart ys := by
  induction xs with
  | nil => simp [countStart]
  | cons e rest ih => cases e <;> simp [countStart, ih] <;> omega

theorem countSettled_append (xs ys : List CkptEvent) :
    countSettled (xs ++ ys) = countSettled xs + countSettled ys := by
  induction xs with
  | nil => simp [countSettled]
  | cons e rest ih => cases e <;> simp [countSettled, ih] <;> omega

theorem ckptStep_count (s : CkptState) (i : CkptInput) :
    countStart (ckptStep s i).2 + outstandingCount s
      = countSettled (ckptStep s i).2 + outstandingCount (ckptStep s i).1 := by
  cases i with
  | close => simp [ckptStep, countStart, countSettled, outstandingCount]
  | request r =>
    simp only [ckptStep, checkpointCoreStep]
    split
    · rfl
    · split <;> rename_i h <;>
        simp [countStart, countSettled, outstandingCount, h]
  | settle ok =>
    simp only [ckptStep, settleStep]
    split
    · rfl
    · rename_i r hr
      split
      · rfl
      · rename_i hstale
        simp only [Bool.not_eq_true] at hstale
        split
        · simp [countStart, countSettled, outstandingCount, hr, hstale]
        · by_cases hk : (!r.skip && ok) = true
          · split
            · simp [hk, countStart, countSettled, outstandingCount, hr, hstale]
            · simp only [checkpointCoreStep]
              by_cases hc : s.closed = true <;>
                simp [hc, hk, countStart, countSettled, countStart_append,
                  countSettled_append, outstandingCount, hr, hstale]
          · split
            · simp [hk, countStart, countSettled, outstandingCount, hr, hstale]
            · simp only [checkpointCoreStep]
              by_cases hc : s.closed = true <;>
                simp [hc, hk, countStart, countSettled, countStart_append,
                  countSettled_append, outstandingCount, hr, hstale]

theorem runCkpt_count (inputs : List CkptInput) :
    ∀ s : CkptState,
      countStart (runCkpt s inputs).2 + outstandingCount s
        = countSettled (runCkpt s inputs).2 + outstandingCount (runCkpt s inputs).1 := by
  induction inputs with
  | nil => intro s; simp [runCkpt, countStart, countSettled]
  | cons i rest ih =>
    intro s
    simp only [runCkpt, countStart_append, countSettled_append]
    have h1 := ckptStep_count s i
    have h2 := ih (ckptStep s i).1
    omega

/-! ## Claim C1 -/

/-- Claim C1, counterexample.  The claim states that
`context.checkpoint(queuedMessage)` is never invoked for a checkpoint
request made with `skipKafkaCheckpoint = true` (as on a `MarkAsCorrupt`
checkpoint).  It fails: a request that arrives while a write is in
flight is stored as the bare `(checkpoint, queuedMessage)` pair (lines
662-663), dropping its `skipKafkaCheckpoint` flag, and the completion
callback flushes it through `checkpointCore` with the flag at its
default `false` (line 696), so its offset is acknowledged.  Concretely:
request 1 (no skip) starts a write; request 2 with `skip = true` is
queued while request 1 is in flight; both writes succeed; the trace
acknowledges offset 20 of request 2. -/
theorem checkpointCore_skip_dropped_counterexample :
    (CkptReq.mk 2 20 false true).skip = true
      ∧ CkptEvent.kafka 2 20 ∈
        (runCkpt ckptInit
          [.request ⟨1, 10, false, false⟩, .request ⟨2, 20, false, true⟩,
           .settle true, .settle true]).2 := by
  decide

/-- Claim C1, amended: the upstream Kafka acknowledgement for a
checkpoint request is invoked only immediately after the database
checkpoint write (or cache-clearing delete) of that request has settled
successfully; it is never invoked when the database operation failed,
nor when the `skipKafkaCheckpoint` flag of the settling request is in
effect — but a request queued behind an in-flight write is flushed with
its `skipKafkaCheckpoint` flag dropped (reset to `false`), so the flag
is only guaranteed for requests that start their database operation
directly. -/
theorem checkpointCore_kafka_ack_discipline :
    (∀ (s : CkptState) (inputs : List CkptInput),
        kafkaJustifiedFrom none (runCkpt s inputs).2 = true)
    ∧ (∀ (s : CkptState) (r : CkptReq) (ok : Bool),
        s.inFlight = some r → r.skip = true →
        noKafka (settleStep s ok).2 = true)
    ∧ (∀ s : CkptState, noKafka (settleStep s false).2 = true) := by
  refine ⟨fun s inputs => runCkpt_justified inputs s none, ?_, ?_⟩
  · intro s r ok hr hskip
    simp only [settleStep, hr, hskip, Bool.not_true, Bool.false_and, if_false,
      Bool.false_eq_true, List.nil_append]
    split
    · simp [noKafka]
    · split
      · simp [noKafka]
      · split
        · simp [noKafka]
        · simp only [checkpointCoreStep]
          split
          · simp [noKafka]
          · simp [noKafka]
  · intro s
    simp only [settleStep]
    split
    · simp [noKafka]
    · rename_i r hr
      split
      · simp [noKafka]
      · split
        · simp [noKafka]
        · simp only [Bool.and_false, if_false, Bool.false_eq_true, List.nil_append]
          split
          · simp [noKafka]
          · simp only [checkpointCoreStep]
            split
            · simp [noKafka]
            · simp [noKafka]

/-- Claim C1, witness: the acknowledgement discipline evaluated at
concrete runs — a failing write acknowledges nothing, a settling
request whose own `skip` flag is set acknowledges nothing, and a
concrete trace satisfies the immediate-precedence check. -/
theorem checkpointCore_kafka_ack_discipline_witness :
    kafkaJustifiedFrom none
        (runCkpt ckptInit [.request ⟨1, 10, false, false⟩, .settle false]).2 = true
    ∧ noKafka (settleStep
        { closed := false, inFlight := some ⟨3, 7, false, true⟩,
          stale := false, queued := none } true).2 = true
    ∧ noKafka (settleStep
        { closed := false, inFlight := some ⟨4, 9, true, false⟩,
          stale := false, queued := none } false).2 = true :=
  ⟨checkpointCore_kafka_ack_discipline.1 ckptInit _,
   checkpointCore_kafka_ack_discipline.2.1 _ ⟨3, 7, false, true⟩ true rfl rfl,
   checkpointCore_kafka_ack_discipline.2.2 _⟩

/-! ## Claim C7 -/

/-- Claim C7: at most one checkpoint write is in flight per lambda
instance.  (1) A request arriving while a write is in flight only
overwrites the single queued pair and starts nothing.  (2) When the
in-flight write settles, the most recently queued pair is flushed as the
next write.  (3) Globally, along any input sequence from the initial
state, the number of started database operations equals the number of
settled ones plus the currently outstanding one (hence at most one is
ever outstanding at once, and the same holds for every prefix of the
inputs, each prefix being itself an input sequence). -/
theorem checkpointCore_single_flight_coalesce :
    (∀ (s : CkptState) (r : CkptReq),
        s.closed = false → s.inFlight.isSome = true →
        checkpointCoreStep s r = ({ s with queued := some (r.id, r.offset) }, []))
    ∧ (∀ (s : CkptState) (r : CkptReq) (ok : Bool) (qid : Nat) (qoff : Int),
        s.closed = false → s.inFlight = some r → r.clearCache = false →
        s.stale = false → s.queued = some (qid, qoff) →
        (settleStep s ok).1.inFlight = some ⟨qid, qoff, false, false⟩
          ∧ (settleStep s ok).1.queued = none
          ∧ CkptEvent.start qid false false ∈ (settleStep s ok).2)
    ∧ (∀ inputs : List CkptInput,
        countStart (runCkpt ckptInit inputs).2
          = countSettled (runCkpt ckptInit inputs).2
            + outstandingCount (runCkpt ckptInit inputs).1) := by
  refine ⟨?_, ?_, ?_⟩
  · intro s r hclosed hsome
    rcases Option.isSome_iff_exists.mp hsome with ⟨q, hq⟩
    simp [checkpointCoreStep, hclosed, hq]
  · intro s r ok qid qoff hclosed hr hcc hstale hq
    simp [settleStep, hr, hstale, hcc, hq, checkpointCoreStep, hclosed]
  · intro inputs
    have h := runCkpt_count inputs ckptInit
    simpa [outstandingCount, ckptInit] using h

/-- Claim C7, witness: the three parts evaluated at concrete inputs —
a request against an in-flight write coalesces, a settlement flushes
the queued pair, and a concrete run balances starts and settlements. -/
theorem checkpointCore_single_flight_coalesce_witness :
    checkpointCoreStep
        { closed := false, inFlight := some ⟨1, 5, false, false⟩,
          stale := false, queued := none } ⟨2, 6, true, true⟩
      = ({ closed := false, inFlight := some ⟨1, 5, false, false⟩,
           stale := false, queued := some (2, 6) }, [])
    ∧ ((settleStep
          { closed := false, inFlight := some ⟨1, 5, false, false⟩,
            stale := false, queued := some (2, 6) } true).1.inFlight
          = some ⟨2, 6, false, false⟩
        ∧ (settleStep
            { closed := false, inFlight := some ⟨1, 5, false, false⟩,
              stale := false, queued := some (2, 6) } true).1.queued = none
        ∧ CkptEvent.start 2 false false ∈ (settleStep
            { closed := false, inFlight := some ⟨1, 5, false, false⟩,
              stale := false, queued := some (2, 6) } true).2)
    ∧ countStart (runCkpt ckptInit
          [.request ⟨1, 10, false, false⟩, .request ⟨2, 20, false, true⟩,
           .settle true]).2
        = countSettled (runCkpt ckptInit
            [.request ⟨1, 10, false, false⟩, .request ⟨2, 20, false, true⟩,
             .settle true]).2
          + outstandingCount (runCkpt ckptInit
              [.request ⟨1, 10, false, false⟩, .request ⟨2, 20, false, true⟩,
               .settle true]).1 :=
  ⟨checkpointCore_single_flight_coalesce.1 _ _ rfl rfl,
   checkpointCore_single_flight_coalesce.2.1 _ ⟨1, 5, false, false⟩ true 2 6
     rfl rfl rfl rfl rfl,
   checkpointCore_single_flight_coalesce.2.2 _⟩

/-! ## Claim C6 -/

/-- Claim C6: a batch whose offset is at or below `lastOffset` takes the
duplicate-filter branch — the handler returns with only the checkpoint
bookkeeping (`currentCheckpointMessage`) updated, so the sequence
numbers, protocol state, pending buffers and summary-related state are
untouched and no summary ops are emitted; an upstream Kafka
acknowledgement for that offset is issued iff
`kafkaCheckpointOnReprocessingOp` is set.  The bookkeeping update is
the spec-modelled `DocumentCheckpointManager.updateCheckpointMessages`. -/
theorem handler_duplicate_filter (cfg : ScribeConfig) (env : ScribeEnv)
    (st : ScribeState) (msg : QueuedMessage) (h : msg.offset ≤ st.lastOffset) :
    handler cfg env st msg
      = .ok ({ st with currentCheckpointMessage := some msg },
             if cfg.kafkaCheckpointOnReprocessingOp then [.kafkaCheckpoint msg.offset] else [])
    ∧ (Emit.kafkaCheckpoint msg.offset ∈ emitsOf (handler cfg env st msg)
        ↔ cfg.kafkaCheckpointOnReprocessingOp = true) := by
  have he : handler cfg env st msg
      = .ok ({ st with currentCheckpointMessage := some msg },
             if cfg.kafkaCheckpointOnReprocessingOp then [.kafkaCheckpoint msg.offset] else []) := by
    simp [handler, h]
  refine ⟨he, ?_⟩
  rw [he]
  by_cases hk : cfg.kafkaCheckpointOnReprocessingOp = true <;> simp [emitsOf, hk]

/-- Claim C6, witness: the duplicate filter at offset 80 against a last
offset of 100, with a summarize op in the boxcar that is not acted on. -/
theorem handler_duplicate_filter_witness :
    handler sampleCfg sampleEnv sampleState { offset := 80, contents := [sampleSummarizeOp] }
      = .ok ({ sampleState with
                 currentCheckpointMessage := some { offset := 80, contents := [sampleSummarizeOp] } },
             if sampleCfg.kafkaCheckpointOnReprocessingOp then [.kafkaCheckpoint 80] else [])
    ∧ (Emit.kafkaCheckpoint 80
        ∈ emitsOf (handler sampleCfg sampleEnv sampleState
            { offset := 80, contents := [sampleSummarizeOp] })
        ↔ sampleCfg.kafkaCheckpointOnReprocessingOp = true) :=
  handler_duplicate_filter sampleCfg sampleEnv sampleState
    { offset := 80, contents := [sampleSummarizeOp] } (by decide)

/-! ## Claim C9 -/

/-- Claim C9: checkpoint-reason selection in priority order —
`EveryMessage` whenever heuristics are disabled; otherwise `MaxMessages`
when the raw message count since the last checkpoint reaches
`maxMessages`; otherwise `MaxTime` when the elapsed time since the last
checkpoint reaches `maxTime`; otherwise no immediate reason and the
end-of-batch decision arms the idle-time checkpoint timer; and
`NoClients` is handled separately at end of batch, taking precedence
over the heuristics whenever a `NoClient` op was observed
(`noActiveClients` set). -/
theorem checkpoint_reason_priority :
    (∀ (cfg : ScribeConfig) (now lastTime : Int) (raw : Nat),
        cfg.checkpointHeuristics.enable = false →
        getCheckpointReason cfg now raw lastTime = some .everyMessage)
    ∧ (∀ (cfg : ScribeConfig) (now lastTime : Int) (raw : Nat),
        cfg.checkpointHeuristics.enable = true →
        raw ≥ cfg.checkpointHeuristics.maxMessages →
        getCheckpointReason cfg now raw lastTime = some .maxMessages)
    ∧ (∀ (cfg : ScribeConfig) (now lastTime : Int) (raw : Nat),
        cfg.checkpointHeuristics.enable = true →
        raw < cfg.checkpointHeuristics.maxMessages →
        now - lastTime ≥ cfg.checkpointHeuristics.maxTime →
        getCheckpointReason cfg now raw lastTime = some .maxTime)
    ∧ (∀ (cfg : ScribeConfig) (now lastTime : Int) (raw : Nat),
        cfg.checkpointHeuristics.enable = true →
        raw < cfg.checkpointHeuristics.maxMessages →
        now - lastTime < cfg.checkpointHeuristics.maxTime →
        getCheckpointReason cfg now raw lastTime = none)
    ∧ (∀ (cfg : ScribeConfig) (env : ScribeEnv) (st : ScribeState) (msg : QueuedMessage),
        st.noActiveClients = false →
        getCheckpointReason cfg env.now (st.rawMessagesSinceCheckpoint + 1)
            st.lastCheckpointTime = none →
        (endOfBatch cfg env st msg).2 = [.idleTimerArmed])
    ∧ (∀ (cfg : ScribeConfig) (env : ScribeEnv) (st : ScribeState) (msg : QueuedMessage),
        st.noActiveClients = true →
        (endOfBatch cfg env st msg).2
          = [.checkpointRequested .noClients msg.offset false true]) := by
  refine ⟨?_, ?_, ?_, ?_, ?_, ?_⟩
  · intro cfg now lastTime raw h
    simp [getCheckpointReason, h]
  · intro cfg now lastTime raw h1 h2
    simp [getCheckpointReason, h1, h2]
  · intro cfg now lastTime raw h1 h2 h3
    simp [getCheckpointReason, h1, Nat.not_le.mpr h2, h3]
  · intro cfg now lastTime raw h1 h2 h3
    simp [getCheckpointReason, h1, Nat.not_le.mpr h2, Int.not_le.mpr h3]
  · intro cfg env st msg h hreason
    simp [endOfBatch, h, hreason]
  · intro cfg env st msg h
    by_cases hl : cfg.localCheckpointEnabled = true <;>
      simp [endOfBatch, h, hl, prepareCheckpoint, isGlobalCheckpoint]

/-- Claim C9, witness: each selection case evaluated at concrete
configurations and states. -/
theorem checkpoint_reason_priority_witness :
    getCheckpointReason
        { sampleCfg with checkpointHeuristics :=
            { enable := false, maxMessages := 10, maxTime := 60, idleTime := 5 } }
        100 3 90 = some .everyMessage
    ∧ getCheckpointReason sampleCfg 100 12 90 = some .maxMessages
    ∧ getCheckpointReason sampleCfg 200 3 90 = some .maxTime
    ∧ getCheckpointReason sampleCfg 100 3 90 = none
    ∧ (endOfBatch sampleCfg sampleEnv sampleState { offset := 101, contents := [] }).2
        = [.idleTimerArmed]
    ∧ (endOfBatch sampleCfg sampleEnv { sampleState with noActiveClients := true }
          { offset := 101, contents := [] }).2
        = [.checkpointRequested .noClients 101 false true] :=
  ⟨checkpoint_reason_priority.1 _ 100 90 3 rfl,
   checkpoint_reason_priority.2.1 _ 100 90 12 rfl (by decide),
   checkpoint_reason_priority.2.2.1 _ 200 90 3 rfl (by decide) (by decide),
   checkpoint_reason_priority.2.2.2.1 _ 100 90 3 rfl (by decide) (by decide),
   checkpoint_reason_priority.2.2.2.2.1 sampleCfg sampleEnv sampleState _ rfl (by decide),
   checkpoint_reason_priority.2.2.2.2.2 sampleCfg sampleEnv _ _ rfl⟩

/-! ## Frame lemmas: draining the pending buffer touches only the
protocol handler and the pending buffer -/

@[simp]
theorem processFromPending_protocolHead (t : Nat) (st : ScribeState) :
    (processFromPending t st).protocolHead = st.protocolHead := rfl

@[simp]
theorem processFromPending_validParentSummaries (t : Nat) (st : ScribeState) :
    (processFromPending t st).validParentSummaries = st.validParentSummaries := rfl

@[simp]
theorem processFromPending_isDocumentCorrupt (t : Nat) (st : ScribeState) :
    (processFromPending t st).isDocumentCorrupt = st.isDocumentCorrupt := rfl

@[simp]
theorem processFromPending_lastSummarySequenceNumber (t : Nat) (st : ScribeState) :
    (processFromPending t st).lastSummarySequenceNumber = st.lastSummarySequenceNumber := rfl

/-! ## Claim C3 -/

/-- Claim C3: a successful client summary with a non-external writer
emits, in order, the `SummaryAck` carrying the writer's new handle and
then the `UpdateDSN` control op with `isClientSummary = true` and
`clearCache = false`, and afterwards sets `protocolHead` and
`lastSummarySequenceNumber` to the protocol handler's current (advanced)
sequence number. -/
theorem summarize_success_ack_then_dsn (cfg : ScribeConfig) (env : ScribeEnv)
    (st : ScribeState) (op : SeqOp) (h : String) (ssn : Nat)
    (hext : cfg.isExternal = false)
    (hresp : env.writeClientSummary op = .success h ssn)
    (hguard : st.protocolHead
        < (processFromPending op.referenceSequenceNumber st).protocolHandler.sequenceNumber) :
    summarizeDispatch cfg env st op
      = .ok ({ processFromPending op.referenceSequenceNumber st with
                 protocolHead :=
                   (processFromPending op.referenceSequenceNumber st).protocolHandler.sequenceNumber
                 lastSummarySequenceNumber :=
                   some (processFromPending op.referenceSequenceNumber
                     st).protocolHandler.sequenceNumber },
             [.clientSummaryWriteAttempt op.sequenceNumber, .summaryAckOp h,
              .controlUpdateDSN op.sequenceNumber true false]) := by
  simp only [summarizeDispatch, hext, Bool.not_false, Bool.true_or, if_true, hresp,
    processFromPending_protocolHead, hguard, if_pos]

/-- Claim C3, witness: the successful summary at sequence number 11
against the sample state. -/
theorem summarize_success_ack_then_dsn_witness :
    summarizeDispatch sampleCfg sampleEnv sampleState sampleSummarizeOp
      = .ok ({ processFromPending 10 sampleState with
                 protocolHead := (processFromPending 10 sampleState).protocolHandler.sequenceNumber
                 lastSummarySequenceNumber :=
                   some (processFromPending 10 sampleState).protocolHandler.sequenceNumber },
             [.clientSummaryWriteAttempt 11, .summaryAckOp "h1",
              .controlUpdateDSN 11 true false]) :=
  summarize_success_ack_then_dsn sampleCfg sampleEnv sampleState sampleSummarizeOp
    "h1" 11 rfl rfl (by decide)

/-! ## Claim C2 -/

/-- Claim C2: for a `Summarize` op handled with a non-external writer,
when `writeClientSummary` returns `status = false` the lambda emits a
`SummaryNack` and restores the protocol handler and the pending op
buffer to the snapshot captured immediately before the summary attempt,
leaving `protocolHead` unchanged — the resulting state is exactly the
dispatch-entry state; when it returns `status = true` the snapshot is
not restored (the protocol handler stays advanced) and `protocolHead`
strictly increases. -/
theorem summarize_nack_rollback_ack_advance :
    (∀ (cfg : ScribeConfig) (env : ScribeEnv) (st : ScribeState) (op : SeqOp) (m : String),
        cfg.isExternal = false →
        env.writeClientSummary op = .nacked m →
        st.protocolHead
          < (processFromPending op.referenceSequenceNumber st).protocolHandler.sequenceNumber →
        summarizeDispatch cfg env st op
          = .ok (st, [.clientSummaryWriteAttempt op.sequenceNumber, .summaryNackOp m]))
    ∧ (∀ (cfg : ScribeConfig) (env : ScribeEnv) (st : ScribeState) (op : SeqOp)
          (h : String) (ssn : Nat),
        cfg.isExternal = false →
        env.writeClientSummary op = .success h ssn →
        st.protocolHead
          < (processFromPending op.referenceSequenceNumber st).protocolHandler.sequenceNumber →
        summarizeDispatch cfg env st op
            = .ok ({ processFromPending op.referenceSequenceNumber st with
                       protocolHead :=
                         (processFromPending op.referenceSequenceNumber
                           st).protocolHandler.sequenceNumber
                       lastSummarySequenceNumber :=
                         some (processFromPending op.referenceSequenceNumber
                           st).protocolHandler.sequenceNumber },
                   [.clientSummaryWriteAttempt op.sequenceNumber, .summaryAckOp h,
                    .controlUpdateDSN op.sequenceNumber true false])
          ∧ st.protocolHead
              < ({ processFromPending op.referenceSequenceNumber st with
                     protocolHead :=
                       (processFromPending op.referenceSequenceNumber
                         st).protocolHandler.sequenceNumber
                     lastSummarySequenceNumber :=
                       some (processFromPending op.referenceSequenceNumber
                         st).protocolHandler.sequenceNumber } : ScribeState).protocolHead) := by
  constructor
  · intro cfg env st op m hext hresp hguard
    simp only [summarizeDispatch, hext, Bool.not_false, Bool.true_or, if_true, hresp,
      processFromPending_protocolHead, hguard, if_pos]
    rfl
  · intro cfg env st op h ssn hext hresp hguard
    refine ⟨?_, hguard⟩
    simp only [summarizeDispatch, hext, Bool.not_false, Bool.true_or, if_true, hresp,
      processFromPending_protocolHead, hguard, if_pos]

/-- Claim C2, witness: the nack path restores the sample state exactly,
and the ack path advances the protocol head. -/
theorem summarize_nack_rollback_ack_advance_witness :
    summarizeDispatch sampleCfg
        { sampleEnv with writeClientSummary := fun _ => .nacked "bad" }
        sampleState sampleSummarizeOp
      = .ok (sampleState, [.clientSummaryWriteAttempt 11, .summaryNackOp "bad"])
    ∧ (summarizeDispatch sampleCfg sampleEnv sampleState sampleSummarizeOp
          = .ok ({ processFromPending 10 sampleState with
                     protocolHead := (processFromPending 10 sampleState).protocolHandler.sequenceNumber
                     lastSummarySequenceNumber :=
                       some (processFromPending 10 sampleState).protocolHandler.sequenceNumber },
                 [.clientSummaryWriteAttempt 11, .summaryAckOp "h1",
                  .controlUpdateDSN 11 true false])
        ∧ sampleState.protocolHead
            < ({ processFromPending 10 sampleState with
                   protocolHead := (processFromPending 10 sampleState).protocolHandler.sequenceNumber
                   lastSummarySequenceNumber :=
                     some (processFromPending 10 sampleState).protocolHandler.sequenceNumber }
                 : ScribeState).protocolHead) :=
  ⟨summarize_nack_rollback_ack_advance.1 sampleCfg _ sampleState sampleSummarizeOp
      "bad" rfl rfl (by decide),
   summarize_nack_rollback_ack_advance.2 sampleCfg sampleEnv sampleState sampleSummarizeOp
      "h1" 11 rfl rfl (by decide)⟩

/-! ## Contiguity lemmas for the pending buffer -/

theorem contiguousFrom_append (xs ys : List SeqOp) :
    ∀ base, contiguousFrom base xs → contiguousFrom (base + xs.length) ys →
      contiguousFrom base (xs ++ ys) := by
  induction xs with
  | nil => intro base _ hy; simpa using hy
  | cons m rest ih =>
    intro base hx hy
    simp only [contiguousFrom] at hx
    obtain ⟨h1, h2⟩ := hx
    refine ⟨h1, ?_⟩
    apply ih m.sequenceNumber h2
    have heq : m.sequenceNumber + rest.length = base + (m :: rest).length := by
      simp [List.length_cons, h1]; omega
    rw [heq]; exact hy

theorem getLast?_cons_isSome (b : SeqOp) (t : List SeqOp) :
    ((b :: t).getLast?).isSome = true := by
  induction t generalizing b with
  | nil => rfl
  | cons c t2 ih => rw [List.getLast?_cons_cons]; exact ih c

theorem contiguousFrom_lastKnown (pm : List SeqOp) :
    ∀ base, contiguousFrom base pm →
      ((pm.getLast?).map SeqOp.sequenceNumber).getD base = base + pm.length := by
  induction pm with
  | nil => intro base _; simp
  | cons m rest ih =>
    intro base h
    simp only [contiguousFrom] at h
    obtain ⟨h1, h2⟩ := h
    cases rest with
    | nil => simp [h1]
    | cons b t =>
      have hrec := ih m.sequenceNumber h2
      rcases Option.isSome_iff_exists.mp (getLast?_cons_isSome b t) with ⟨x, hx⟩
      rw [List.getLast?_cons_cons, hx]
      rw [hx] at hrec
      simp at hrec ⊢
      omega

/-! ## Claim C5 -/

/-- Claim C5: for an incoming op that reaches gap detection (it is above
the checkpointed sequence number and above the last known sequence
number — the back of the pending buffer, or the protocol handler's
sequence number when the buffer is empty) and is not exactly one past
the last known number: with no pending message reader configured the
handler throws the invalid-sequence-number error; with a reader it
requests exactly the ops `lastKnown + 1 .. op.sequenceNumber - 1` and
appends them to the pending buffer before the op itself, so that a
buffer contiguous above the protocol handler's sequence number stays
contiguous (given a reader honouring its contract of returning the ops
covering the requested inclusive range). -/
theorem gap_detection_and_healing :
    (∀ (cfg : ScribeConfig) (env : ScribeEnv) (st : ScribeState) (op : SeqOp),
        env.pendingMessageReader = none →
        st.sequenceNumber < op.sequenceNumber →
        lastKnownSeq st < op.sequenceNumber →
        op.sequenceNumber ≠ lastKnownSeq st + 1 →
        processOp cfg env st op
          = .error (.invalidSequenceNumber op.sequenceNumber (lastKnownSeq st)))
    ∧ (∀ (cfg : ScribeConfig) (env : ScribeEnv) (st : ScribeState) (op : SeqOp)
          (readMessages : Nat → Nat → List SeqOp),
        env.pendingMessageReader = some readMessages →
        st.sequenceNumber < op.sequenceNumber →
        lastKnownSeq st < op.sequenceNumber →
        op.sequenceNumber ≠ lastKnownSeq st + 1 →
        op.type = .op →
        op.minimumSequenceNumber = st.minSequenceNumber →
        processOp cfg env st op
          = .ok ({ st with
                     pendingMessages :=
                       st.pendingMessages
                         ++ readMessages (lastKnownSeq st + 1) (op.sequenceNumber - 1) ++ [op]
                     pendingCheckpointMessages :=
                       if cfg.enablePendingCheckpointMessages then
                         st.pendingCheckpointMessages ++ [op]
                       else st.pendingCheckpointMessages
                     sequenceNumber := op.sequenceNumber
                     minSequenceNumber := op.minimumSequenceNumber
                     clearCache := false },
               [.readerRequest (lastKnownSeq st + 1) (op.sequenceNumber - 1)]))
    ∧ (∀ (base : Nat) (pm fetched : List SeqOp) (op : SeqOp),
        contiguousFrom base pm →
        contiguousFrom (base + pm.length) fetched →
        op.sequenceNumber = base + pm.length + fetched.length + 1 →
        contiguousFrom base (pm ++ fetched ++ [op]))
    ∧ (∀ st : ScribeState,
        contiguousFrom st.protocolHandler.sequenceNumber st.pendingMessages →
        lastKnownSeq st = st.protocolHandler.sequenceNumber + st.pendingMessages.length) := by
  refine ⟨?_, ?_, ?_, ?_⟩
  · intro cfg env st op hreader hs hl hgap
    have h1 : ¬(op.sequenceNumber ≤ st.sequenceNumber) := Nat.not_le.mpr hs
    have h2 : ¬(op.sequenceNumber ≤ lastKnownSeq st) := Nat.not_le.mpr hl
    simp [processOp, h1, h2, healGap, hgap, hreader]
  · intro cfg env st op readMessages hreader hs hl hgap htype hmsn
    have h1 : ¬(op.sequenceNumber ≤ st.sequenceNumber) := Nat.not_le.mpr hs
    have h2 : ¬(op.sequenceNumber ≤ lastKnownSeq st) := Nat.not_le.mpr hl
    by_cases hpc : cfg.enablePendingCheckpointMessages = true <;>
      simp [processOp, ingestOp, h1, h2, healGap, hgap, hreader, hmsn, htype, hpc]
  · intro base pm fetched op hpm hf hseq
    apply contiguousFrom_append
    · exact contiguousFrom_append pm fetched base hpm hf
    · refine ⟨?_, trivial⟩
      simp [List.length_append]
      omega
  · intro st h
    unfold lastKnownSeq
    exact contiguousFrom_lastKnown st.pendingMessages st.protocolHandler.sequenceNumber h

/-- Claim C5, witness: the op at sequence number 7 against a last known
number of 4 — fatal without a reader, healed into a contiguous buffer
`[5, 6, 7]` with one. -/
theorem gap_detection_and_healing_witness :
    processOp sampleCfg sampleEnv gapState (mkOp 7 2)
      = .error (.invalidSequenceNumber 7 (lastKnownSeq gapState))
    ∧ processOp sampleCfg gapEnv gapState (mkOp 7 2)
      = .ok ({ gapState with
                 pendingMessages :=
                   gapState.pendingMessages
                     ++ (fun a b => if a = 5 ∧ b = 6 then [mkOp 5 2, mkOp 6 2] else [])
                          (lastKnownSeq gapState + 1) ((mkOp 7 2).sequenceNumber - 1)
                     ++ [mkOp 7 2]
                 pendingCheckpointMessages :=
                   if sampleCfg.enablePendingCheckpointMessages then
                     gapState.pendingCheckpointMessages ++ [mkOp 7 2]
                   else gapState.pendingCheckpointMessages
                 sequenceNumber := (mkOp 7 2).sequenceNumber
                 minSequenceNumber := (mkOp 7 2).minimumSequenceNumber
                 clearCache := false },
             [.readerRequest (lastKnownSeq gapState + 1) ((mkOp 7 2).sequenceNumber - 1)])
    ∧ contiguousFrom 4 ([] ++ [mkOp 5 2, mkOp 6 2] ++ [mkOp 7 2])
    ∧ lastKnownSeq gapState
        = gapState.protocolHandler.sequenceNumber + gapState.pendingMessages.length :=
  ⟨gap_detection_and_healing.1 sampleCfg sampleEnv gapState (mkOp 7 2)
      rfl (by decide) (by decide) (by decide),
   gap_detection_and_healing.2.1 sampleCfg gapEnv gapState (mkOp 7 2) _
      rfl (by decide) (by decide) (by decide) rfl (by decide),
   gap_detection_and_healing.2.2.1 4 [] [mkOp 5 2, mkOp 6 2] (mkOp 7 2)
      (by decide) (by decide) (by decide),
   gap_detection_and_healing.2.2.2 gapState (by decide)⟩

/-! ## Lemmas for the checkpoint write eviction -/

theorem writeCheckpointStep_snd (maxLen : Nat) (st : ScribeState) :
    (writeCheckpointStep maxLen st).2
      = st.pendingCheckpointMessages.filter
          (fun pcm => st.lastCheckpointInsertedNumber < pcm.sequenceNumber) := by
  simp only [writeCheckpointStep]
  split <;> rfl

theorem mem_of_getLast (l : List SeqOp) (x : SeqOp) (h : l.getLast? = some x) : x ∈ l := by
  induction l with
  | nil => simp at h
  | cons a t ih =>
    cases t with
    | nil => simp at h; simp [h]
    | cons b t2 =>
      rw [List.getLast?_cons_cons] at h
      exact List.mem_cons_of_mem a (ih h)

theorem pairwise_le_getLast (l : List SeqOp)
    (hp : l.Pairwise (fun a b => a.sequenceNumber < b.sequenceNumber)) :
    ∀ m ∈ l, ∀ x, l.getLast? = some x → m.sequenceNumber ≤ x.sequenceNumber := by
  induction l with
  | nil => intro m hm; simp at hm
  | cons a t ih =>
    intro m hm x hx
    rcases List.mem_cons.mp hm with hma | hmt
    · subst hma
      cases t with
      | nil => simp at hx; simp [hx]
      | cons b t2 =>
        rw [List.getLast?_cons_cons] at hx
        have hxmem : x ∈ b :: t2 := mem_of_getLast _ _ hx
        have := (List.pairwise_cons.mp hp).1 x hxmem
        omega
    · cases t with
      | nil => simp at hmt
      | cons b t2 =>
        rw [List.getLast?_cons_cons] at hx
        exact ih (List.pairwise_cons.mp hp).2 m hmt x hx

theorem pairwise_dropWhile_gt (c : Nat) (l : List SeqOp)
    (hp : l.Pairwise (fun a b => a.sequenceNumber < b.sequenceNumber)) :
    ∀ m ∈ l.dropWhile (fun m => m.sequenceNumber ≤ c), c < m.sequenceNumber := by
  induction l with
  | nil => intro m hm; simp [List.dropWhile] at hm
  | cons a t ih =>
    intro m hm
    by_cases ha : a.sequenceNumber ≤ c
    · rw [List.dropWhile_cons_of_pos (by simpa using ha)] at hm
      exact ih (List.pairwise_cons.mp hp).2 m hm
    · rw [List.dropWhile_cons_of_neg (by simpa using ha)] at hm
      rcases List.mem_cons.mp hm with hma | hmt
      · subst hma; omega
      · have := (List.pairwise_cons.mp hp).1 m hmt
        omega

theorem writeCheckpointStep_inserts_gt (maxLen : Nat) (st : ScribeState) :
    ∀ m ∈ (writeCheckpointStep maxLen st).2,
      st.lastCheckpointInsertedNumber < m.sequenceNumber := by
  intro m hm
  rw [writeCheckpointStep_snd] at hm
  have := List.mem_filter.mp hm
  simpa using this.2

theorem le_getD_getLast (l : List SeqOp) (d : Nat)
    (hp : l.Pairwise (fun a b => a.sequenceNumber < b.sequenceNumber)) :
    ∀ m ∈ l, m.sequenceNumber ≤ ((l.getLast?).map SeqOp.sequenceNumber).getD d := by
  intro m hm
  cases l with
  | nil => simp at hm
  | cons a t =>
    rcases Option.isSome_iff_exists.mp (getLast?_cons_isSome a t) with ⟨x, hx⟩
    rw [hx]
    simpa using pairwise_le_getLast (a :: t) hp m hm x hx

theorem writeCheckpointStep_inserts_le (maxLen : Nat) (st : ScribeState)
    (hsorted : seqsIncreasing st.pendingCheckpointMessages) :
    ∀ m ∈ (writeCheckpointStep maxLen st).2,
      m.sequenceNumber ≤ (writeCheckpointStep maxLen st).1.lastCheckpointInsertedNumber := by
  intro m hm
  rw [writeCheckpointStep_snd] at hm
  have hpf := List.Pairwise.filter
    (fun pcm => decide (st.lastCheckpointInsertedNumber < pcm.sequenceNumber)) hsorted
  simp only [writeCheckpointStep]
  split
  · rename_i hins
    exact absurd hm (by simp [List.isEmpty_iff.mp hins])
  · exact le_getD_getLast _ _ hpf m hm

theorem writeCheckpointStep_buffer_gt (maxLen : Nat) (st : ScribeState)
    (hsorted : seqsIncreasing st.pendingCheckpointMessages)
    (hne : (writeCheckpointStep maxLen st).2 ≠ []) :
    ∀ m ∈ (writeCheckpointStep maxLen st).1.pendingCheckpointMessages,
      max (writeCheckpointStep maxLen st).1.protocolHead
          ((writeCheckpointStep maxLen st).1.lastCheckpointInsertedNumber - maxLen)
        < m.sequenceNumber := by
  intro m hm
  rw [writeCheckpointStep_snd] at hne
  by_cases he : (st.pendingCheckpointMessages.filter
      (fun pcm => st.lastCheckpointInsertedNumber < pcm.sequenceNumber)).isEmpty = true
  · exact absurd (List.isEmpty_iff.mp he) hne
  · simp only [writeCheckpointStep, he, Bool.false_eq_true, if_false] at hm ⊢
    exact pairwise_dropWhile_gt _ _ hsorted m hm

theorem writeCheckpointStep_no_reinsert (maxLen maxLen2 : Nat) (st st2 : ScribeState)
    (hsorted : seqsIncreasing st.pendingCheckpointMessages)
    (hcarry : st2.lastCheckpointInsertedNumber
        = (writeCheckpointStep maxLen st).1.lastCheckpointInsertedNumber) :
    ∀ m1 ∈ (writeCheckpointStep maxLen st).2,
    ∀ m2 ∈ (writeCheckpointStep maxLen2 st2).2,
      m1.sequenceNumber ≠ m2.sequenceNumber := by
  intro m1 h1 m2 h2
  have hle := writeCheckpointStep_inserts_le maxLen st hsorted m1 h1
  have hgt := writeCheckpointStep_inserts_gt maxLen2 st2 m2 h2
  rw [hcarry] at hgt
  omega

/-! ## Claim C10 -/

/-- Claim C10: after a successful checkpoint write that inserted ops
(the insert list is nonempty), the pending checkpoint message buffer
contains only entries with sequence number strictly greater than
`max(protocolHead, lastInserted − maxPendingCheckpointMessagesLength)`
(for the updated last-inserted number); only ops above the last inserted
number are handed to the checkpoint manager for insertion; and across a
later write that carries the updated last-inserted number, no op is
inserted twice (the insert lists are disjoint by sequence number).  The
buffer's sequence numbers are assumed strictly increasing, the order the
boxcar loop pushes them in. -/
theorem checkpoint_write_eviction_no_reinsert :
    (∀ (maxLen : Nat) (st : ScribeState),
        seqsIncreasing st.pendingCheckpointMessages →
        (writeCheckpointStep maxLen st).2 ≠ [] →
        ∀ m ∈ (writeCheckpointStep maxLen st).1.pendingCheckpointMessages,
          max (writeCheckpointStep maxLen st).1.protocolHead
              ((writeCheckpointStep maxLen st).1.lastCheckpointInsertedNumber - maxLen)
            < m.sequenceNumber)
    ∧ (∀ (maxLen : Nat) (st : ScribeState) (m : SeqOp),
        m ∈ (writeCheckpointStep maxLen st).2 →
        st.lastCheckpointInsertedNumber < m.sequenceNumber)
    ∧ (∀ (maxLen maxLen2 : Nat) (st st2 : ScribeState),
        seqsIncreasing st.pendingCheckpointMessages →
        st2.lastCheckpointInsertedNumber
            = (writeCheckpointStep maxLen st).1.lastCheckpointInsertedNumber →
        ∀ m1 ∈ (writeCheckpointStep maxLen st).2,
        ∀ m2 ∈ (writeCheckpointStep maxLen2 st2).2,
          m1.sequenceNumber ≠ m2.sequenceNumber) :=
  ⟨fun maxLen st hs hne => writeCheckpointStep_buffer_gt maxLen st hs hne,
   fun maxLen st m hm => writeCheckpointStep_inserts_gt maxLen st m hm,
   fun a b c d hs hc => writeCheckpointStep_no_reinsert a b c d hs hc⟩

/-- Claim C10, witness: with a buffer `[1, 2, 3, 4]`, protocol head 2
and a cap length of 1, the write inserts all four ops, evicts
everything at or below `max(2, 4 − 1) = 3`, and a later write over the
carried-forward last-inserted number cannot re-insert op 3. -/
theorem checkpoint_write_eviction_no_reinsert_witness :
    max (writeCheckpointStep 1 pcmState).1.protocolHead
        ((writeCheckpointStep 1 pcmState).1.lastCheckpointInsertedNumber - 1)
      < (mkOp 4 0).sequenceNumber
    ∧ pcmState.lastCheckpointInsertedNumber < (mkOp 3 0).sequenceNumber
    ∧ (mkOp 3 0).sequenceNumber ≠ (mkOp 5 0).sequenceNumber :=
  ⟨checkpoint_write_eviction_no_reinsert.1 1 pcmState (by decide) (by decide)
      (mkOp 4 0) (by decide),
   checkpoint_write_eviction_no_reinsert.2.1 1 pcmState (mkOp 3 0) (by decide),
   checkpoint_write_eviction_no_reinsert.2.2 1 1 pcmState
      { (writeCheckpointStep 1 pcmState).1 with
          pendingCheckpointMessages :=
            (writeCheckpointStep 1 pcmState).1.pendingCheckpointMessages ++ [mkOp 5 0] }
      (by decide) rfl (mkOp 3 0) (by decide) (mkOp 5 0) (by decide)⟩

/-! ## Lemmas on the validParentSummaries bound -/

theorem updateValidParentSummaries_bounded (limit : Nat) (st : ScribeState)
    (summaryHandle : String) :
    vpsBounded limit (updateValidParentSummaries limit st summaryHandle) := by
  simp only [updateValidParentSummaries, vpsBounded, Option.getD_some]
  split
  · rename_i h1
    simp only [List.length_drop]
    omega
  · split
    · rename_i h1 h2
      simp only [List.length_drop]
      omega
    · rename_i h1 h2
      omega

theorem summaryAckDispatch_bounded (limit : Nat) (cfg : ScribeConfig)
    (st : ScribeState) (op : SeqOp) :
    vpsBounded limit (summaryAckDispatch cfg st op) := by
  simp only [summaryAckDispatch, vpsBounded]
  split <;> simp

theorem summarizeDispatch_vps (cfg : ScribeConfig) (env : ScribeEnv)
    (st : ScribeState) (op : SeqOp) :
    ∀ st2 es, summarizeDispatch cfg env st op = .ok (st2, es) →
      st2.validParentSummaries = st.validParentSummaries := by
  intro st2 es h
  rcases hw : env.writeClientSummary op with ⟨hh, hs⟩ | hm | _ <;>
    simp only [summarizeDispatch, hw] at h <;>
    repeat' split at h
  all_goals
    first
      | (injection h with h2; injection h2 with h3 h4; subst h3; rfl)
      | injection h

theorem noClientDispatch_vps (cfg : ScribeConfig) (env : ScribeEnv)
    (st : ScribeState) (op : SeqOp) :
    ∀ st2 es, noClientDispatch cfg env st op = .ok (st2, es) →
      st2.validParentSummaries = st.validParentSummaries
        ∨ vpsBounded cfg.maxTrackedServiceSummaryVersionsSinceLastClientSummary st2 := by
  intro st2 es h
  rcases hw : env.writeServiceSummary op with hh | _ | _ <;>
    simp only [noClientDispatch, hw] at h <;>
    repeat' split at h
  all_goals
    first
      | (injection h with h2; injection h2 with h3 h4; subst h3;
         exact Or.inr (updateValidParentSummaries_bounded _ _ _))
      | (injection h with h2; injection h2 with h3 h4; subst h3; exact Or.inl rfl)
      | injection h

theorem healGap_vps (env : ScribeEnv) (st : ScribeState) (op : SeqOp) (lastKnown : Nat) :
    ∀ g, healGap env st op lastKnown = .ok g →
      g.1.validParentSummaries = st.validParentSummaries := by
  intro g h
  simp only [healGap] at h
  repeat' split at h
  all_goals
    first
      | (injection h with h2; subst h2; rfl)
      | injection h

theorem ingestOp_vps (cfg : ScribeConfig) (s : ScribeState) (op : SeqOp) :
    (ingestOp cfg s op).validParentSummaries = s.validParentSummaries := by
  simp only [ingestOp]
  repeat' split
  all_goals simp

theorem processOp_vpsBounded (cfg : ScribeConfig) (env : ScribeEnv)
    (st : ScribeState) (op : SeqOp)
    (hb : vpsBounded cfg.maxTrackedServiceSummaryVersionsSinceLastClientSummary st) :
    ∀ st2 es, processOp cfg env st op = .ok (st2, es) →
      vpsBounded cfg.maxTrackedServiceSummaryVersionsSinceLastClientSummary st2 := by
  intro st2 es h
  simp only [processOp] at h
  split at h
  · injection h with h2; injection h2 with h3 h4; subst h3; exact hb
  · split at h
    · injection h with h2; injection h2 with h3 h4; subst h3; exact hb
    · split at h
      · injection h
      · rename_i gap hgap
        have hst5 : (ingestOp cfg gap.1 op).validParentSummaries
            = st.validParentSummaries := by
          rw [ingestOp_vps]
          exact healGap_vps env st op (lastKnownSeq st) gap hgap
        split at h
        · split at h
          · injection h
          · rename_i r hr
            injection h with h2; injection h2 with h3 h4; subst h3
            have hv := summarizeDispatch_vps cfg env (ingestOp cfg gap.1 op) op r.1 r.2 hr
            unfold vpsBounded at hb ⊢
            rw [hv, hst5]; exact hb
        · split at h
          · split at h
            · injection h
            · rename_i r hr
              injection h with h2; injection h2 with h3 h4; subst h3
              rcases noClientDispatch_vps cfg env (ingestOp cfg gap.1 op) op r.1 r.2 hr with
                hsame | hbnd
              · unfold vpsBounded at hb ⊢
                rw [hsame, hst5]; exact hb
              · exact hbnd
          · split at h
            · injection h with h2; injection h2 with h3 h4; subst h3
              exact summaryAckDispatch_bounded _ cfg _ op
            · split at h
              · injection h with h2; injection h2 with h3 h4; subst h3
                unfold vpsBounded at hb ⊢
                simpa [hst5] using hb
              · injection h with h2; injection h2 with h3 h4; subst h3
                unfold vpsBounded at hb ⊢
                simpa [hst5] using hb

theorem processOps_vpsBounded (cfg : ScribeConfig) (env : ScribeEnv) :
    ∀ (ops : List SeqOp) (st : ScribeState),
      vpsBounded cfg.maxTrackedServiceSummaryVersionsSinceLastClientSummary st →
      ∀ st2 es, processOps cfg env st ops = .ok (st2, es) →
        vpsBounded cfg.maxTrackedServiceSummaryVersionsSinceLastClientSummary st2 := by
  intro ops
  induction ops with
  | nil =>
    intro st hb st2 es h
    simp only [processOps] at h
    injection h with h2; injection h2 with h3 h4; subst h3; exact hb
  | cons op rest ih =>
    intro st hb st2 es h
    simp only [processOps] at h
    split at h
    · injection h
    · rename_i r1 hr1
      split at h
      · injection h
      · rename_i r2 hr2
        injection h with h2; injection h2 with h3 h4; subst h3
        exact ih r1.1 (processOp_vpsBounded cfg env st op hb r1.1 r1.2 hr1) r2.1 r2.2 hr2

theorem endOfBatch_vps (cfg : ScribeConfig) (env : ScribeEnv)
    (st : ScribeState) (msg : QueuedMessage) :
    (endOfBatch cfg env st msg).1.validParentSummaries = st.validParentSummaries := by
  simp only [endOfBatch, prepareCheckpoint]
  repeat' split
  all_goals rfl

/-! ## Claim C8 -/

/-- Claim C8, counterexample.  The claim asserts the
`validParentSummaries` length bound holds in every state, including a
lambda restored from a persisted checkpoint.  It fails there:
`setStateFromCheckpoint` copies the persisted list verbatim (line 846),
and the source itself anticipates checkpoints from before the limit was
enforced carrying more handles than the limit (comment at lines
778-780).  Restoring a checkpoint with three handles under a configured
limit of two yields a state over the bound. -/
theorem validParentSummaries_restore_counterexample :
    sampleCfg.maxTrackedServiceSummaryVersionsSinceLastClientSummary = 2
      ∧ ¬ vpsBounded sampleCfg.maxTrackedServiceSummaryVersionsSinceLastClientSummary
          (initialState sampleCfg overScribe
            { members := [], minimumSequenceNumber := 0, sequenceNumber := 0 } 0 []) := by
  constructor
  · rfl
  · decide

/-- Claim C8, amended: every `updateValidParentSummaries` call leaves at
most `maxTrackedServiceSummaryVersionsSinceLastClientSummary` tracked
handles, and the bound is preserved by every batch the handler
processes; but `setStateFromCheckpoint` copies the persisted list
verbatim, so a lambda restored from a pre-limit checkpoint can start
over the bound until the next service summary re-caps it. -/
theorem validParentSummaries_bound_enforced :
    (∀ (limit : Nat) (st : ScribeState) (h : String),
        vpsBounded limit (updateValidParentSummaries limit st h))
    ∧ (∀ (cfg : ScribeConfig) (env : ScribeEnv) (st : ScribeState) (msg : QueuedMessage)
          (st2 : ScribeState) (es : List Emit),
        vpsBounded cfg.maxTrackedServiceSummaryVersionsSinceLastClientSummary st →
        handler cfg env st msg = .ok (st2, es) →
        vpsBounded cfg.maxTrackedServiceSummaryVersionsSinceLastClientSummary st2) := by
  constructor
  · exact updateValidParentSummaries_bounded
  · intro cfg env st msg st2 es hb h
    simp only [handler] at h
    split at h
    · injection h with h2; injection h2 with h3 h4; subst h3
      unfold vpsBounded at hb ⊢
      simpa using hb
    · split at h
      · injection h
      · rename_i r1 hr1
        injection h with h2; injection h2 with h3 h4; subst h3
        have hb1 := processOps_vpsBounded cfg env msg.contents
          { st with lastOffset := msg.offset }
          (by unfold vpsBounded at hb ⊢; simpa using hb) r1.1 r1.2 hr1
        unfold vpsBounded at hb1 ⊢
        rw [endOfBatch_vps]
        exact hb1

/-- Claim C8, witness: the append that would exceed the limit evicts the
oldest handle, and a batch with a service summary keeps the sample state
(limit two) within the bound. -/
theorem validParentSummaries_bound_enforced_witness :
    vpsBounded 2
        (updateValidParentSummaries 2
          { sampleState with validParentSummaries := some ["a", "b"] } "c")
    ∧ vpsBounded sampleCfg.maxTrackedServiceSummaryVersionsSinceLastClientSummary
        { sampleState with
            currentCheckpointMessage := some ⟨80, [sampleSummarizeOp]⟩ } :=
  ⟨validParentSummaries_bound_enforced.1 2 _ "c",
   validParentSummaries_bound_enforced.2 sampleCfg sampleEnv sampleState
      ⟨80, [sampleSummarizeOp]⟩ _ _ (by decide) rfl⟩

/-! ## Claim C4: the corrupt flag does not gate any behaviour -/

@[simp]
theorem withCorrupt_protocolHandler (st : ScribeState) (b : Bool) :
    (withCorrupt st b).protocolHandler = st.protocolHandler := rfl

@[simp]
theorem withCorrupt_protocolHead (st : ScribeState) (b : Bool) :
    (withCorrupt st b).protocolHead = st.protocolHead := rfl

@[simp]
theorem withCorrupt_pendingMessages (st : ScribeState) (b : Bool) :
    (withCorrupt st b).pendingMessages = st.pendingMessages := rfl

@[simp]
theorem withCorrupt_sequenceNumber (st : ScribeState) (b : Bool) :
    (withCorrupt st b).sequenceNumber = st.sequenceNumber := rfl

@[simp]
theorem withCorrupt_lastOffset (st : ScribeState) (b : Bool) :
    (withCorrupt st b).lastOffset = st.lastOffset := rfl

@[simp]
theorem lastKnownSeq_withCorrupt (st : ScribeState) (b : Bool) :
    lastKnownSeq (withCorrupt st b) = lastKnownSeq st := rfl

theorem processFromPending_withCorrupt (t : Nat) (st : ScribeState) (b : Bool) :
    processFromPending t (withCorrupt st b) = withCorrupt (processFromPending t st) b := rfl

theorem summaryAckDispatch_withCorrupt (cfg : ScribeConfig) (st : ScribeState)
    (op : SeqOp) (b : Bool) :
    summaryAckDispatch cfg (withCorrupt st b) op
      = withCorrupt (summaryAckDispatch cfg st op) b := by
  cases st
  simp only [summaryAckDispatch, withCorrupt]
  split <;> rfl

theorem ingestOp_withCorrupt (cfg : ScribeConfig) (s : ScribeState) (op : SeqOp)
    (b : Bool) :
    ingestOp cfg (withCorrupt s b) op = withCorrupt (ingestOp cfg s op) b := by
  cases s
  simp only [ingestOp, withCorrupt, processFromPending, drainPending]
  repeat' split
  all_goals rfl

theorem healGap_withCorrupt (env : ScribeEnv) (st : ScribeState) (op : SeqOp)
    (lastKnown : Nat) (b : Bool) :
    healGap env (withCorrupt st b) op lastKnown
      = Except.map (fun r => (withCorrupt r.1 b, r.2)) (healGap env st op lastKnown) := by
  simp only [healGap]
  repeat' split
  all_goals simp [Except.map]
  all_goals rfl

theorem summarizeDispatch_withCorrupt (cfg : ScribeConfig) (env : ScribeEnv)
    (st : ScribeState) (op : SeqOp) (b : Bool) :
    summarizeDispatch cfg env (withCorrupt st b) op
      = Except.map (fun r => (withCorrupt r.1 b, r.2)) (summarizeDispatch cfg env st op) := by
  rcases hw : env.writeClientSummary op with ⟨hh, hs⟩ | hm | _ <;>
    simp only [summarizeDispatch, processFromPending_withCorrupt, withCorrupt_protocolHandler,
      withCorrupt_protocolHead, withCorrupt_pendingMessages, hw] <;>
    repeat' split
  all_goals
    first
      | rfl
      | simp [Except.map]

theorem noClientDispatch_withCorrupt (cfg : ScribeConfig) (env : ScribeEnv)
    (st : ScribeState) (op : SeqOp) (b : Bool) :
    noClientDispatch cfg env (withCorrupt st b) op
      = Except.map (fun r => (withCorrupt r.1 b, r.2)) (noClientDispatch cfg env st op) := by
  rcases hw : env.writeServiceSummary op with hh | _ | _ <;>
    simp only [noClientDispatch, hw] <;>
    repeat' split
  all_goals
    first
      | rfl
      | simp [Except.map]

theorem processOp_withCorrupt (cfg : ScribeConfig) (env : ScribeEnv)
    (st : ScribeState) (op : SeqOp) (b : Bool) :
    processOp cfg env (withCorrupt st b) op
      = Except.map (fun r => (withCorrupt r.1 b, r.2)) (processOp cfg env st op) := by
  simp only [processOp, withCorrupt_sequenceNumber, lastKnownSeq_withCorrupt]
  split
  · simp [Except.map]
  · split
    · simp [Except.map]
    · rw [healGap_withCorrupt]
      rcases hg : healGap env st op (lastKnownSeq st) with e | gap
      · simp [Except.map]
      · simp only [Except.map]
        rw [ingestOp_withCorrupt]
        split
        · rw [summarizeDispatch_withCorrupt]
          rcases hs : summarizeDispatch cfg env (ingestOp cfg gap.1 op) op with e | r <;>
            simp [hs, Except.map]
        · split
          · rw [noClientDispatch_withCorrupt]
            rcases hs : noClientDispatch cfg env (ingestOp cfg gap.1 op) op with e | r <;>
              simp [hs, Except.map]
          · split
            · rw [summaryAckDispatch_withCorrupt]
            · split
              · rfl
              · rfl

theorem processOps_withCorrupt (cfg : ScribeConfig) (env : ScribeEnv) :
    ∀ (ops : List SeqOp) (st : ScribeState) (b : Bool),
      processOps cfg env (withCorrupt st b) ops
        = Except.map (fun r => (withCorrupt r.1 b, r.2)) (processOps cfg env st ops) := by
  intro ops
  induction ops with
  | nil => intro st b; rfl
  | cons op rest ih =>
    intro st b
    simp only [processOps]
    rw [processOp_withCorrupt]
    rcases hp : processOp cfg env st op with e | r1
    · simp [Except.map]
    · simp only [Except.map]
      rw [ih r1.1 b]
      rcases hq : processOps cfg env r1.1 rest with e2 | r2 <;> simp [Except.map]

theorem endOfBatch_withCorrupt (cfg : ScribeConfig) (env : ScribeEnv)
    (st : ScribeState) (msg : QueuedMessage) (b : Bool) :
    endOfBatch cfg env (withCorrupt st b) msg
      = (withCorrupt (endOfBatch cfg env st msg).1 b, (endOfBatch cfg env st msg).2) := by
  cases st
  simp only [endOfBatch, prepareCheckpoint, withCorrupt]
  repeat' split
  all_goals rfl

/-- Claim C4, counterexample.  The claim states that in every reachable
state with `isCorrupt` set (including a lambda constructed from a
corrupt checkpoint), processing further batches emits no summary side
effects.  It fails: nothing in `handler` consults `isDocumentCorrupt`
— a lambda restored from a corrupt checkpoint processes a `Summarize`
op exactly like a healthy one, writing the client summary and emitting
a `SummaryAck`. -/
theorem corrupt_restored_state_emits_summary :
    (initialState sampleCfg corruptScribe
        { members := [], minimumSequenceNumber := 5, sequenceNumber := 10 } 0
        []).isDocumentCorrupt = true
    ∧ Emit.summaryAckOp "h1" ∈ emitsOf (handler sampleCfg sampleEnv
        (initialState sampleCfg corruptScribe
          { members := [], minimumSequenceNumber := 5, sequenceNumber := 10 } 0 [])
        ⟨101, [sampleSummarizeOp]⟩) := by
  decide

/-- Claim C4, amended: the `isCorrupt` flag gates nothing in the
handler — processing any batch from a state with the flag set (such as
a lambda restored from a corrupt checkpoint) produces exactly the same
emissions, including all summary side effects, and the same state apart
from the flag itself, as processing it with the flag clear; the flag is
only recorded into the checkpoints the lambda writes (and a protocol
error sets it, checkpoints with `MarkAsCorrupt` skipping the upstream
acknowledgement, and rethrows). -/
theorem handler_independent_of_isCorrupt (cfg : ScribeConfig) (env : ScribeEnv)
    (st : ScribeState) (msg : QueuedMessage) (b : Bool) :
    handler cfg env (withCorrupt st b) msg
      = Except.map (fun r => (withCorrupt r.1 b, r.2)) (handler cfg env st msg) := by
  simp only [handler, withCorrupt_lastOffset]
  split
  · split <;> rfl
  · rw [show ({ withCorrupt st b with lastOffset := msg.offset } : ScribeState)
        = withCorrupt { st with lastOffset := msg.offset } b from rfl]
    rw [processOps_withCorrupt]
    rcases hp : processOps cfg env { st with lastOffset := msg.offset } msg.contents with
      e | r1
    · simp [Except.map]
    · simp only [Except.map]
      rw [endOfBatch_withCorrupt]

end Scribe
